import Mathlib

/-!
ApiMug: request assembly, authentication and the view-state engine.

A shallow embedding of `internal/api` (auth.go, client.go, types.go) and
`internal/tui` (model.go, input.go).

Conventions of the embedding

* Go strings are Lean strings.  The standard-library functions the program calls
  (`strings.ReplaceAll`, `strings.ToUpper`, `textproto.CanonicalMIMEHeaderKey`)
  are written out as structural recursions over the characters.
* A Go `map[string]V` is an association list with pairwise distinct keys
  (`GoMap V`); assignment `m[k] = v` is `GoMap.set`.  The order in which a
  `range` loop visits a map is not fixed by the language: every `range` over a
  map takes a number that selects one of the permutations of the entries, and
  every permutation is selected by some number.
* A method with a pointer receiver becomes a function that returns the updated
  record; a nil dereference or an index out of range becomes `Except.error`.
-/

namespace ApiMug

/-! ## Go strings -/

/-- Scanner of `strings.ReplaceAll` for a non-empty `old`: the counter is the
number of characters of a match that are still to be skipped. -/
def replaceAux (old new : List Char) : Nat → List Char → List Char
  | _, [] => []
  | k + 1, _ :: t => replaceAux old new k t
  | 0, c :: t =>
    if old.isPrefixOf (c :: t) then new ++ replaceAux old new (old.length - 1) t
    else c :: replaceAux old new 0 t

/-- Go `strings.ReplaceAll`: non-overlapping occurrences of `old`, left to right;
an empty `old` matches before every character and at the end. -/
def ReplaceAll (s old new : String) : String :=
  if old.data = [] then ⟨new.data ++ s.data.flatMap (fun c => c :: new.data)⟩
  else ⟨replaceAux old.data new.data 0 s.data⟩

/-- Go `strings.ToUpper`, on the ASCII letters (method names are ASCII). -/
def ToUpper (s : String) : String := ⟨s.data.map Char.toUpper⟩

/-- Go `strings.Join`. -/
def Join : List String → String → String
  | [], _ => ""
  | [a], _ => a
  | a :: b :: t, sep => a ++ sep ++ Join (b :: t) sep

/-- Go `strings.TrimSuffix`. -/
def TrimSuffix (s suffix : String) : String :=
  if suffix.data.isSuffixOf s.data then ⟨s.data.take (s.data.length - suffix.data.length)⟩
  else s

/-! ## Go maps -/

/-- A Go `map[string]V`: an association list whose keys are pairwise distinct. -/
abbrev GoMap (V : Type) := List (String × V)

namespace GoMap

/-- The lookup `m[k]` with its presence flag. -/
def get {V : Type} (m : GoMap V) (k : String) : Option V := List.lookup k m

/-- The assignment `m[k] = v`. -/
def set {V : Type} : GoMap V → String → V → GoMap V
  | [], k, v => [(k, v)]
  | (k', v') :: t, k, v => if k' = k then (k, v) :: t else (k', v') :: set t k v

/-- The keys of the map. -/
def keys {V : Type} (m : GoMap V) : List String := m.map Prod.fst

/-- The permutation of a list of length `n` selected by `seed`: the element at
index `seed % n` comes first, the rest is permuted by `seed / n`. -/
def permuteAux {α : Type} : Nat → Nat → List α → List α
  | 0, _, _ => []
  | n + 1, seed, l =>
    match l[seed % (n + 1)]? with
    | none => []
    | some x => x :: permuteAux n (seed / (n + 1)) (l.eraseIdx (seed % (n + 1)))

/-- The entries in the order a `range` loop visits them: the permutation of the
entries selected by `seed`. -/
def range {V : Type} (m : GoMap V) (seed : Nat) : List (String × V) :=
  permuteAux m.length seed m

end GoMap

/-! ## internal/api/types.go -/

/-- A request parameter (types.go, `Parameter`). -/
structure Parameter where
  Name : String
  In : String
  Required : Bool
  Description : String
  Schema : String
  Example : String
  deriving DecidableEq, Repr

/-- An API endpoint (types.go, `Endpoint`). -/
structure Endpoint where
  Path : String
  Method : String
  Summary : String
  Description : String
  Tags : List String
  Parameters : List Parameter
  RequestBody : String
  HasBody : Bool
  deriving DecidableEq, Repr

/-! ## internal/api/client.go: the request description -/

/-- An API request (client.go, `Request`). -/
structure Request where
  Method : String
  Path : String
  Headers : GoMap String
  QueryParams : GoMap String
  Body : String
  ContentType : String
  deriving DecidableEq, Repr

/-! ## internal/tui/input.go -/

/-- A text input field (input.go, `InputField`); of the `textinput.Model` it
wraps, the placeholder, the entered value and the focus flag are kept. -/
structure InputField where
  Label : String
  Placeholder : String
  Value : String
  Focused : Bool
  Required : Bool
  deriving DecidableEq, Repr

/-- The constructor `NewInputField(label, placeholder, required)`: a fresh
`textinput.New()` holds the empty value and is not focused. -/
def NewInputField (label placeholder : String) (required : Bool) : InputField :=
  { Label := label, Placeholder := placeholder, Value := "", Focused := false,
    Required := required }

namespace InputField

/-- The method `SetValue`. -/
def SetValue (f : InputField) (v : String) : InputField := { f with Value := v }

/-- The method `Focus`. -/
def Focus (f : InputField) : InputField := { f with Focused := true }

/-- The method `Blur`. -/
def Blur (f : InputField) : InputField := { f with Focused := false }

end InputField

/-- The `textarea.Model` of the body field: entered text and focus flag. -/
structure TextArea where
  Value : String
  Focused : Bool
  deriving DecidableEq, Repr

/-! ## internal/tui/model.go: the request built in `sendRequest` -/

/-- The inner loop of `sendRequest` (model.go 518-530): the first parameter of the
endpoint whose name is `name` decides where `val` goes, then the loop breaks. -/
def applyParam (params : List Parameter) (req : Request) (name val : String) : Request :=
  match params.find? (fun p => p.Name == name) with
  | none => req
  | some p =>
    if p.In = "query" then { req with QueryParams := req.QueryParams.set name val }
    else if p.In = "header" then { req with Headers := req.Headers.set name val }
    else if p.In = "path" then
      { req with Path := ReplaceAll req.Path ("\x7b" ++ name ++ "\x7d") val }
    else req

/-- One iteration of the outer loop of `sendRequest` (model.go 511-531): a field
with an empty value is skipped. -/
def visitParam (sel : Endpoint) (req : Request) (e : String × InputField) : Request :=
  if e.2.Value = "" then req else applyParam sel.Parameters req e.1 e.2.Value

/-- The request assembled by `sendRequest` (model.go 503-537) for the selected
endpoint; `visited` lists the entries of `paramInputs` in the order the `range`
loop visits them, `body` is the body field. -/
def buildRequest (sel : Endpoint) (visited : List (String × InputField))
    (body : TextArea) : Request :=
  let req : Request :=
    { Method := ToUpper sel.Method, Path := sel.Path, QueryParams := [], Headers := [],
      Body := "", ContentType := "" }
  let req := visited.foldl (visitParam sel) req
  if sel.HasBody then { req with Body := body.Value, ContentType := "application/json" }
  else req

/-! ## net/http: the outgoing request

Of `http.Request` the embedding keeps what the program reads or writes.  The
query string `URL.RawQuery` is represented by the `url.Values` it decodes to, so
that `q := req.URL.Query(); q.Set(k, v); req.URL.RawQuery = q.Encode()` is one
`Values.Set`.  The cookies are in the header `Cookie`, where `AddCookie` writes
them after sanitising name and value. -/

/-- The characters allowed in a header field name (`textproto`, token bytes). -/
def validHeaderFieldByte (c : Char) : Bool :=
  c.isAlphanum || "!#$%&*+-.^_|~".data.contains c || c.toNat == 39 || c.toNat == 96

/-- The case rule of `textproto.CanonicalMIMEHeaderKey`: upper case at the start
and after a hyphen, lower case elsewhere. -/
def canonicalCase : Bool → List Char → List Char
  | _, [] => []
  | upper, c :: t =>
    let c' := if upper && c.isLower then c.toUpper
      else if !upper && c.isUpper then c.toLower else c
    c' :: canonicalCase (c' == '-') t

/-- Go `textproto.CanonicalMIMEHeaderKey`: a key with a character that is not
allowed in a field name is returned unchanged. -/
def CanonicalMIMEHeaderKey (s : String) : String :=
  if s.data.all validHeaderFieldByte then ⟨canonicalCase true s.data⟩ else s

/-- The UTF-8 bytes of a string. -/
def utf8Bytes (s : String) : List Nat :=
  s.data.flatMap (fun c => (String.utf8EncodeChar c).map UInt8.toNat)

/-- The alphabet of `base64.StdEncoding`. -/
def base64Alphabet : List Char :=
  "ABCDEFGHIJKLMNOPQRSTUVWXYZabcdefghijklmnopqrstuvwxyz0123456789+/".data

/-- The base64 digit of a number below 64. -/
def base64Digit (n : Nat) : Char := base64Alphabet.getD n 'A'

/-- Go `base64.StdEncoding.EncodeToString` on a list of bytes. -/
def base64Encode : List Nat → List Char
  | [] => []
  | [a] => [base64Digit (a / 4), base64Digit (a % 4 * 16), '=', '=']
  | [a, b] =>
    [base64Digit (a / 4), base64Digit (a % 4 * 16 + b / 16), base64Digit (b % 16 * 4), '=']
  | a :: b :: c :: t =>
    base64Digit (a / 4) :: base64Digit (a % 4 * 16 + b / 16) ::
      base64Digit (b % 16 * 4 + c / 64) :: base64Digit (c % 64) :: base64Encode t

/-- An `http.Cookie`: name and value. -/
structure Cookie where
  Name : String
  Value : String
  deriving DecidableEq, Repr

/-- An `http.Request`. -/
structure HttpRequest where
  Method : String
  URL : String
  Query : GoMap (List String)
  Header : GoMap (List String)
  Body : String
  deriving DecidableEq, Repr

/-- Go `validCookieValueByte` (net/http, cookie.go): the printable ASCII bytes
other than the double quote, the semicolon and the backslash.  Every byte of a
character that is not ASCII is 0x80 or more, so such a character is dropped whole. -/
def validCookieValueByte (c : Char) : Bool :=
  decide (32 ≤ c.toNat) && decide (c.toNat < 127) && c.toNat != 34 && c.toNat != 59 &&
    c.toNat != 92

/-- Go `sanitizeCookieName`: line feed and carriage return become a hyphen. -/
def sanitizeCookieName (n : String) : String :=
  String.mk (n.data.map (fun c => if c.toNat = 10 ∨ c.toNat = 13 then '-' else c))

/-- Go `sanitizeCookieValue` for a cookie that is not marked `Quoted`: the bytes
that are not valid are dropped, and what is left, if not empty, is wrapped in
double quotes when it holds a space or a comma. -/
def sanitizeCookieValue (v : String) : String :=
  let kept := v.data.filter validCookieValueByte
  if kept = [] then String.mk kept
  else if kept.any (fun c => c == ' ' || c == ',') then
    String.mk ([Char.ofNat 34] ++ kept ++ [Char.ofNat 34])
  else String.mk kept

/-- Go `http.Header.Set`. -/
def Header.Set (h : GoMap (List String)) (key value : String) : GoMap (List String) :=
  h.set (CanonicalMIMEHeaderKey key) [value]

/-- Go `http.Header.Get`: the first value filed under the key, or "". -/
def Header.Get (h : GoMap (List String)) (key : String) : String :=
  match h.get (CanonicalMIMEHeaderKey key) with
  | some (v :: _) => v
  | _ => ""

/-- Go `url.Values.Set`. -/
def Values.Set (q : GoMap (List String)) (key value : String) : GoMap (List String) :=
  q.set key [value]

/-- Go `url.Values.Get`: the first value filed under the key, or "". -/
def Values.Get (q : GoMap (List String)) (key : String) : String :=
  match q.get key with
  | some (v :: _) => v
  | _ => ""

namespace HttpRequest

/-- Go `req.Header.Set(key, value)`. -/
def setHeader (r : HttpRequest) (key value : String) : HttpRequest :=
  { r with Header := Header.Set r.Header key value }

/-- Go `q := req.URL.Query(); q.Set(key, value); req.URL.RawQuery = q.Encode()`. -/
def setQuery (r : HttpRequest) (key value : String) : HttpRequest :=
  { r with Query := Values.Set r.Query key value }

/-- The cookies of the request: the line of the header `Cookie`, from which
`req.Cookies()` reads them; "" when there is none. -/
def Cookies (r : HttpRequest) : String := Header.Get r.Header "Cookie"

/-- Go `req.AddCookie` (net/http, request.go): the pair of the sanitised name and
the sanitised value is written to the header `Cookie`, after "; " when the header
already holds cookies. -/
def AddCookie (r : HttpRequest) (c : Cookie) : HttpRequest :=
  let s := sanitizeCookieName c.Name ++ "=" ++ sanitizeCookieValue c.Value
  if Header.Get r.Header "Cookie" ≠ "" then
    r.setHeader "Cookie" (Header.Get r.Header "Cookie" ++ "; " ++ s)
  else r.setHeader "Cookie" s

/-- Go `req.SetBasicAuth`. -/
def SetBasicAuth (r : HttpRequest) (username password : String) : HttpRequest :=
  r.setHeader "Authorization"
    ("Basic " ++ String.mk (base64Encode (utf8Bytes (username ++ ":" ++ password))))

end HttpRequest

/-! ## internal/api/auth.go -/

/-- The type of authentication (auth.go, `AuthType`, a string type). -/
abbrev AuthType := String

/-- The constant `AuthTypeNone`. -/
abbrev AuthTypeNone : AuthType := "none"
/-- The constant `AuthTypeBearer`. -/
abbrev AuthTypeBearer : AuthType := "bearer"
/-- The constant `AuthTypeAPIKey`. -/
abbrev AuthTypeAPIKey : AuthType := "apikey"
/-- The constant `AuthTypeBasic`. -/
abbrev AuthTypeBasic : AuthType := "basic"
/-- The constant `AuthTypeOAuth2`. -/
abbrev AuthTypeOAuth2 : AuthType := "oauth2"

/-- The authentication configuration (auth.go, `AuthConfig`); `Typ` is the field
`Type`. -/
structure AuthConfig where
  Typ : AuthType
  Token : String
  APIKey : String
  APIKeyIn : String
  KeyName : String
  Username : String
  Password : String
  deriving DecidableEq, Repr

/-- The zero value `&AuthConfig{}`. -/
def AuthConfig.zero : AuthConfig :=
  { Typ := "", Token := "", APIKey := "", APIKeyIn := "", KeyName := "", Username := "",
    Password := "" }

/-- A declared security scheme (`openapi3.SecurityScheme`): the fields that
`ParseAuthScheme` reads; `Typ` is the field `Type`. -/
structure SecurityScheme where
  Typ : String
  Scheme : String
  Name : String
  In : String
  deriving DecidableEq, Repr

/-- The specification (types.go, `Spec`) as far as the authentication manager reads
it: `SecuritySchemes` is `Doc.Components.SecuritySchemes`, and `none` when `Doc`,
`Components` or the map is nil.  Every declared scheme is resolved. -/
structure Spec where
  SecuritySchemes : Option (GoMap SecurityScheme)
  Title : String
  Version : String
  deriving DecidableEq, Repr

/-- The authentication manager (auth.go, `AuthManager`). -/
structure AuthManager where
  config : Option AuthConfig
  spec : Spec
  deriving DecidableEq, Repr

/-- The constructor `NewAuthManager`. -/
def NewAuthManager (spec : Spec) : AuthManager :=
  { spec := spec, config := some { AuthConfig.zero with Typ := AuthTypeNone } }

namespace AuthManager

/-- The method `GetAvailableAuthSchemes`; `seed` selects the order in which the
`range` loop visits the scheme map. -/
def GetAvailableAuthSchemes (am : AuthManager) (seed : Nat) : List String :=
  match am.spec.SecuritySchemes with
  | none => ["none"]
  | some schemes => "none" :: (GoMap.range schemes seed).map Prod.fst

/-- The method `SetAuth`. -/
def SetAuth (am : AuthManager) (config : AuthConfig) : AuthManager :=
  { am with config := some config }

/-- The method `GetAuth`. -/
def GetAuth (am : AuthManager) : Option AuthConfig := am.config

/-- The method `ApplyAuth`: the request as the call leaves it, and the returned
error (`none` for nil). -/
def ApplyAuth (am : AuthManager) (req : HttpRequest) : HttpRequest × Option String :=
  match am.config with
  | none => (req, none)
  | some config =>
    if config.Typ = AuthTypeNone then (req, none)
    else if config.Typ = AuthTypeBearer then
      if config.Token = "" then (req, some "bearer token is required")
      else (req.setHeader "Authorization" ("Bearer " ++ config.Token), none)
    else if config.Typ = AuthTypeAPIKey then
      if config.APIKey = "" then (req, some "API key is required")
      else if config.APIKeyIn = "header" then
        (req.setHeader config.KeyName config.APIKey, none)
      else if config.APIKeyIn = "query" then
        (req.setQuery config.KeyName config.APIKey, none)
      else if config.APIKeyIn = "cookie" then
        (req.AddCookie { Name := config.KeyName, Value := config.APIKey }, none)
      else (req, none)
    else if config.Typ = AuthTypeBasic then
      if config.Username = "" ∨ config.Password = "" then
        (req, some "username and password are required")
      else (req.SetBasicAuth config.Username config.Password, none)
    else if config.Typ = AuthTypeOAuth2 then
      if config.Token = "" then (req, some "OAuth2 token is required")
      else (req.setHeader "Authorization" ("Bearer " ++ config.Token), none)
    else (req, none)

/-- The method `ParseAuthScheme`. -/
def ParseAuthScheme (am : AuthManager) (schemeName : String) : Except String AuthConfig :=
  if schemeName = "none" then .ok { AuthConfig.zero with Typ := AuthTypeNone }
  else
    match am.spec.SecuritySchemes with
    | none => .error "no security schemes defined"
    | some schemes =>
      match schemes.get schemeName with
      | none => .error ("security scheme " ++ schemeName ++ " not found")
      | some scheme =>
        if scheme.Typ = "http" then
          if scheme.Scheme = "bearer" then .ok { AuthConfig.zero with Typ := AuthTypeBearer }
          else if scheme.Scheme = "basic" then
            .ok { AuthConfig.zero with Typ := AuthTypeBasic }
          else .ok AuthConfig.zero
        else if scheme.Typ = "apiKey" then
          .ok { AuthConfig.zero with
                Typ := AuthTypeAPIKey, KeyName := scheme.Name, APIKeyIn := scheme.In }
        else if scheme.Typ = "oauth2" then .ok { AuthConfig.zero with Typ := AuthTypeOAuth2 }
        else .error ("unsupported auth type: " ++ scheme.Typ)

end AuthManager

/-! ## internal/api/client.go: sending -/

/-- An API response (client.go, `Response`); the wall-clock `Duration` is left
out, `Error` is `none` for nil. -/
structure Response where
  StatusCode : Int
  Status : String
  Headers : GoMap (List String)
  Body : String
  Error : Option String
  deriving DecidableEq, Repr

/-- The zero value `&Response{}`. -/
def Response.zero : Response :=
  { StatusCode := 0, Status := "", Headers := [], Body := "", Error := none }

/-- What `httpClient.Do` hands back on success: status, headers and the outcome of
reading the body with `io.ReadAll`. -/
structure HttpResponse where
  StatusCode : Int
  Status : String
  Header : GoMap (List String)
  Body : Except String String

/-- The API client (client.go, `Client`); the `http.Client` is the transport
passed to `Send`. -/
structure Client where
  baseURL : String
  authMgr : Option AuthManager
  deriving DecidableEq, Repr

/-- The constructor `NewClient`. -/
def NewClient (baseURL : String) (authMgr : Option AuthManager) : Client :=
  { baseURL := TrimSuffix baseURL "/", authMgr := authMgr }

/-- The outcome of `Send`: the response it returns and the requests it handed to
the network (`httpClient.Do`), in order. -/
structure SendResult where
  resp : Response
  calls : List HttpRequest

/-- The method `Client.Send`.  `newRequest` is `http.NewRequestWithContext`
(method, URL, body), `doRequest` is `httpClient.Do`; `seedQ` and `seedH` select the
orders in which the two `range` loops visit the query and header maps. -/
def Client.Send (newRequest : String → String → String → Except String HttpRequest)
    (doRequest : HttpRequest → Except String HttpResponse)
    (c : Client) (seedQ seedH : Nat) (req : Request) : SendResult :=
  let url := c.baseURL ++ req.Path ++
    (if req.QueryParams.length > 0 then
      "?" ++ Join ((GoMap.range req.QueryParams seedQ).map (fun e => e.1 ++ "=" ++ e.2)) "&"
     else "")
  match newRequest req.Method url req.Body with
  | .error err =>
    { resp := { Response.zero with Error := some ("failed to create request: " ++ err) },
      calls := [] }
  | .ok httpReq =>
    let httpReq :=
      if req.ContentType ≠ "" then httpReq.setHeader "Content-Type" req.ContentType
      else httpReq
    let httpReq := (GoMap.range req.Headers seedH).foldl
      (fun r e => r.setHeader e.1 e.2) httpReq
    let applied : HttpRequest × Option String :=
      match c.authMgr with
      | none => (httpReq, none)
      | some am => am.ApplyAuth httpReq
    match applied.2 with
    | some err =>
      { resp := { Response.zero with Error := some ("auth error: " ++ err) }, calls := [] }
    | none =>
      match doRequest applied.1 with
      | .error err =>
        { resp := { Response.zero with Error := some ("request failed: " ++ err) },
          calls := [applied.1] }
      | .ok httpResp =>
        let resp : Response :=
          match httpResp.Body with
          | .error err =>
            { Response.zero with Error := some ("failed to read response: " ++ err) }
          | .ok body => { Response.zero with Body := body }
        { resp := { resp with
                    StatusCode := httpResp.StatusCode, Status := httpResp.Status,
                    Headers := httpResp.Header },
          calls := [applied.1] }

/-! ## internal/tui/model.go: the model

The Bubble Tea components (`list`, `textinput`, `textarea`) are libraries; the
embedding keeps of them the state the program reads: the cursor of the list, and
the text and focus flag of an input. -/

/-- A run-time panic of the Go program. -/
inductive Panic where
  | nilDereference
  | indexOutOfRange
  deriving DecidableEq, Repr

deriving instance DecidableEq for Except

/-- The view modes (model.go, `viewMode`). -/
inductive viewMode where
  | viewList
  | viewDetail
  | viewRequest
  | viewResponse
  | viewAuth
  | viewSettings
  deriving DecidableEq, Repr

/-- A message handed to `Update`: a window resize, a completed request, a key
press (`key` is `msg.String()`), or any other message. -/
inductive Msg where
  | WindowSizeMsg (Width Height : Int)
  | responseMsg (response : Response)
  | KeyMsg (key : String)
  | other
  deriving DecidableEq, Repr

/-- The key bindings (model.go, `keys`). -/
structure keyMap where
  Up : List String
  Down : List String
  Select : List String
  Back : List String
  Quit : List String
  Server : List String
  Settings : List String

/-- The variable `keys`. -/
def keys : keyMap :=
  { Up := ["up", "k"], Down := ["down", "j"], Select := ["enter"], Back := ["esc"],
    Server := ["s"], Settings := ["c"], Quit := ["q", "ctrl+c"] }

/-- Go `key.Matches`: the key is one of the keys of the binding. -/
def keyMatches (key : String) (binding : List String) : Bool := binding.contains key

/-- The `list.Model`: its items and the index of the cursor. -/
structure ListModel where
  items : List Endpoint
  cursor : Nat
  deriving DecidableEq, Repr

namespace ListModel

/-- The method `SelectedItem`: the item under the cursor, if any. -/
def SelectedItem (l : ListModel) : Option Endpoint := l.items[l.cursor]?

/-- The method `Update` of the list, for the cursor keys: down and up move the
cursor by one and stop at the ends; paging and filtering are not modelled. -/
def Update (l : ListModel) (msg : Msg) : ListModel :=
  match msg with
  | .KeyMsg key =>
    if keys.Down.contains key then
      (if l.cursor + 1 < l.items.length then { l with cursor := l.cursor + 1 } else l)
    else if keys.Up.contains key then { l with cursor := l.cursor - 1 }
    else l
  | _ => l

end ListModel

/-- The `textinput.Model.Update` behind `InputField.Update`: an unfocused input
ignores the message; a focused one appends a typed character (up to the limit of
500 set by `NewInputField`) and drops the last one on backspace.  Cursor movement
inside the text is not modelled. -/
def InputField.Update (f : InputField) (msg : Msg) : InputField :=
  match msg with
  | .KeyMsg key =>
    if f.Focused = false then f
    else if key = "backspace" then { f with Value := String.mk f.Value.data.dropLast }
    else if key.data.length = 1 ∧ f.Value.data.length < 500 then
      { f with Value := f.Value ++ key }
    else f
  | _ => f

namespace TextArea

/-- The method `Focus` of the text area. -/
def Focus (t : TextArea) : TextArea := { t with Focused := true }

/-- The method `Blur` of the text area. -/
def Blur (t : TextArea) : TextArea := { t with Focused := false }

/-- The `textarea.Model.Update`, as `InputField.Update`, with the limit of 5000
set by `NewModel`. -/
def Update (t : TextArea) (msg : Msg) : TextArea :=
  match msg with
  | .KeyMsg key =>
    if t.Focused = false then t
    else if key = "backspace" then { t with Value := String.mk t.Value.data.dropLast }
    else if key.data.length = 1 ∧ t.Value.data.length < 5000 then
      { t with Value := t.Value ++ key }
    else t
  | _ => t

end TextArea

/-- The change `f` applied to the field stored under `k` (a method called through
the pointer the map holds). -/
def GoMap.adjust {V : Type} (m : GoMap V) (k : String) (f : V → V) : GoMap V :=
  m.map (fun e => if e.1 = k then (e.1, f e.2) else e)

/-- The loop `idx := 0; for _, input := range m { if idx == i { f(input); break };
idx++ }`: the change `f` applied to the field visited at position `i`. -/
def atVisited (m : GoMap InputField) (seed : Nat) (i : Int) (f : InputField → InputField) :
    GoMap InputField :=
  if i < 0 then m
  else
    match (GoMap.range m seed)[i.toNat]? with
    | some e => GoMap.adjust m e.1 f
    | none => m

/-- The model (model.go, `Model`).  `client` is the base URL of the client when it
has been created (its manager is `authMgr`, shared by pointer); `onSettingsChange`
tells whether the callback is set and `settingsCalls` lists its invocations. -/
structure Model where
  spec : Spec
  authMgr : AuthManager
  client : Option String
  list : ListModel
  mode : viewMode
  selected : Option Endpoint
  response : Option Response
  width : Int
  height : Int
  paramInputs : GoMap InputField
  bodyInput : TextArea
  focusedInput : Int
  baseURL : String
  authInputs : GoMap InputField
  authSchemes : List String
  selectedScheme : Int
  settingsInputs : GoMap InputField
  port : Int
  onSettingsChange : Bool
  settingsCalls : List (String × Int)
  deriving DecidableEq, Repr

/-- A command returned by `Update`: nothing, `tea.Quit`, or the closure returned by
`sendRequest`, which reads the model it was created from. -/
inductive Cmd where
  | none
  | Quit
  | sendRequest (snapshot : Model)
  deriving DecidableEq, Repr

/-- The constructor `NewModel`; `endpoints` is `spec.GetEndpoints()` and `seed`
selects the order in which `GetAvailableAuthSchemes` visits the scheme map. -/
def NewModel (spec : Spec) (endpoints : List Endpoint) (seed : Nat) (baseURL : String)
    (port : Int) (onSettingsChange : Bool) : Model :=
  { spec := spec, authMgr := NewAuthManager spec, client := none,
    list := { items := endpoints, cursor := 0 }, mode := .viewList, selected := none,
    response := none, width := 0, height := 0, paramInputs := [],
    bodyInput := { Value := "", Focused := false }, focusedInput := 0, baseURL := baseURL,
    authInputs := [], authSchemes := (NewAuthManager spec).GetAvailableAuthSchemes seed,
    selectedScheme := 0, settingsInputs := [], port := port,
    onSettingsChange := onSettingsChange, settingsCalls := [] }

/-- Go `xs[i]` on a slice with an `int` index. -/
def indexSlice {α : Type} (xs : List α) (i : Int) : Except Panic α :=
  if i < 0 then .error .indexOutOfRange
  else
    match xs[i.toNat]? with
    | some x => .ok x
    | none => .error .indexOutOfRange

/-- Go `m.selected.f`: the dereference of the selected endpoint. -/
def derefSelected (m : Model) : Except Panic Endpoint :=
  match m.selected with
  | some sel => .ok sel
  | none => .error .nilDereference

namespace Model

/-- The method `initRequestInputs`; `seed` selects the order of the `range` loop
that focuses the first input. -/
def initRequestInputs (m : Model) (seed : Nat) : Except Panic Model := do
  let m : Model := { m with paramInputs := [], focusedInput := 0 }
  let sel ← derefSelected m
  let inputs := sel.Parameters.foldl
    (fun acc param =>
      GoMap.set acc param.Name
        (NewInputField (param.Name ++ " (" ++ param.In ++ ")") param.Example param.Required))
    m.paramInputs
  let m : Model := { m with paramInputs := inputs }
  if m.paramInputs.length > 0 then
    .ok { m with paramInputs := atVisited m.paramInputs seed 0 InputField.Focus }
  else if sel.HasBody then .ok { m with bodyInput := m.bodyInput.Focus }
  else .ok m

/-- The method `cycleFocus`; `seedBlur` and `seedFocus` select the orders of its
two `range` loops. -/
def cycleFocus (m : Model) (reverse : Bool) (seedBlur seedFocus : Nat) :
    Except Panic Model := do
  let sel ← derefSelected m
  let totalInputs : Int := (m.paramInputs.length : Int) + (if sel.HasBody then 1 else 0)
  if totalInputs = 0 then .ok m
  else
    let m : Model :=
      if m.focusedInput = (m.paramInputs.length : Int) then
        { m with bodyInput := m.bodyInput.Blur }
      else
        { m with
          paramInputs := atVisited m.paramInputs seedBlur m.focusedInput InputField.Blur }
    let m : Model :=
      if reverse then
        (if m.focusedInput - 1 < 0 then { m with focusedInput := totalInputs - 1 }
         else { m with focusedInput := m.focusedInput - 1 })
      else
        (if m.focusedInput + 1 ≥ totalInputs then { m with focusedInput := 0 }
         else { m with focusedInput := m.focusedInput + 1 })
    if m.focusedInput = (m.paramInputs.length : Int) then
      .ok { m with bodyInput := m.bodyInput.Focus }
    else
      .ok { m with
            paramInputs := atVisited m.paramInputs seedFocus m.focusedInput InputField.Focus }

/-- The request assembled by the closure of `sendRequest` (model.go 503-537);
`seed` selects the order in which the `range` loop visits `paramInputs`. -/
def sendRequest (m : Model) (seed : Nat) : Except Panic Request := do
  let sel ← derefSelected m
  .ok (buildRequest sel (GoMap.range m.paramInputs seed) m.bodyInput)

/-- The method `initAuthInputs`. -/
def initAuthInputs (m : Model) : Except Panic Model := do
  let m : Model := { m with authInputs := [], focusedInput := 0 }
  let schemeName ← indexSlice m.authSchemes m.selectedScheme
  if schemeName = "none" then .ok m
  else
    match m.authMgr.ParseAuthScheme schemeName with
    | .error _ => .ok m
    | .ok config =>
      if config.Typ = AuthTypeBearer ∨ config.Typ = AuthTypeOAuth2 then
        .ok { m with
              authInputs := GoMap.set m.authInputs "token"
                (NewInputField "Token" "Enter token" true).Focus }
      else if config.Typ = AuthTypeAPIKey then
        .ok { m with
              authInputs := GoMap.set m.authInputs "apikey"
                (NewInputField
                  ("API Key (" ++ config.KeyName ++ " in " ++ config.APIKeyIn ++ ")")
                  "Enter API key" true).Focus }
      else if config.Typ = AuthTypeBasic then
        .ok { m with
              authInputs := GoMap.set
                (GoMap.set m.authInputs "username"
                  (NewInputField "Username" "Enter username" true).Focus)
                "password" (NewInputField "Password" "Enter password" true) }
      else .ok m

/-- The `switch config.Type` of `applyAuth` (model.go 637-655): the values of the
auth inputs are copied into the parsed configuration. -/
def fillCredentials (config : AuthConfig) (authInputs : GoMap InputField) : AuthConfig :=
  if config.Typ = AuthTypeBearer ∨ config.Typ = AuthTypeOAuth2 then
    match authInputs.get "token" with
    | some input => { config with Token := input.Value }
    | none => config
  else if config.Typ = AuthTypeAPIKey then
    match authInputs.get "apikey" with
    | some input => { config with APIKey := input.Value }
    | none => config
  else if config.Typ = AuthTypeBasic then
    let config : AuthConfig :=
      match authInputs.get "username" with
      | some input => { config with Username := input.Value }
      | none => config
    match authInputs.get "password" with
    | some input => { config with Password := input.Value }
    | none => config
  else config

/-- The method `applyAuth`. -/
def applyAuth (m : Model) : Except Panic Model := do
  let schemeName ← indexSlice m.authSchemes m.selectedScheme
  if schemeName = "none" then
    .ok { m with authMgr := m.authMgr.SetAuth { AuthConfig.zero with Typ := AuthTypeNone } }
  else
    match m.authMgr.ParseAuthScheme schemeName with
    | .error _ => .ok m
    | .ok config =>
      .ok { m with authMgr := m.authMgr.SetAuth (fillCredentials config m.authInputs) }

end Model

/-- Go `isSpace` of package `fmt` (scan.go): the Unicode space characters. -/
def isSpace (c : Char) : Bool :=
  (decide (9 ≤ c.toNat) && decide (c.toNat ≤ 13)) || c.toNat == 32 || c.toNat == 0x85 ||
    c.toNat == 0xa0 || c.toNat == 0x1680 ||
    (decide (0x2000 ≤ c.toNat) && decide (c.toNat ≤ 0x200a)) ||
    (decide (0x2028 ≤ c.toNat) && decide (c.toNat ≤ 0x2029)) || c.toNat == 0x202f ||
    c.toNat == 0x205f || c.toNat == 0x3000

/-- Go `(*ss).SkipSpace` as `Sscanf` runs it: space characters are skipped, a line
feed (also after a carriage return) is the error "unexpected newline", `none`. -/
def skipSpace : List Char → Option (List Char)
  | [] => some []
  | c :: t =>
    if c.toNat = 10 then none
    else if c.toNat = 13 ∧ t.head? = some (Char.ofNat 10) then skipSpace t
    else if isSpace c then skipSpace t
    else some (c :: t)

/-- Go `fmt.Sscanf(s, "%d", &n)`: leading space is skipped, then an optional sign
and the longest run of decimal digits is read and parsed as a 64-bit integer; what
follows the digits is not read.  `none` when the scan fails (no digit, a newline
before the number, a value outside 64 bits), which leaves `n` as it was. -/
def sscanInt (s : String) : Option Int :=
  match skipSpace s.data with
  | none => none
  | some cs =>
    let signed : Bool × List Char :=
      match cs with
      | '+' :: t => (false, t)
      | '-' :: t => (true, t)
      | _ => (false, cs)
    let tok := signed.2.takeWhile Char.isDigit
    if tok = [] then none
    else
      let n : Nat := tok.foldl (fun a c => 10 * a + (c.toNat - 48)) 0
      let v : Int := if signed.1 then -(n : Int) else (n : Int)
      if -(2 ^ 63 : Int) ≤ v ∧ v < (2 ^ 63 : Int) then some v else none

namespace Model

/-- The method `initSettingsInputs`. -/
def initSettingsInputs (m : Model) : Model :=
  let m : Model := { m with settingsInputs := [], focusedInput := 0 }
  let baseURLField :=
    ((NewInputField "Base URL" "https://api.example.com" false).SetValue m.baseURL).Focus
  let m : Model := { m with settingsInputs := GoMap.set m.settingsInputs "baseURL" baseURLField }
  let portField := (NewInputField "Swagger UI Port" "8080" false).SetValue (toString m.port)
  { m with settingsInputs := GoMap.set m.settingsInputs "port" portField }

/-- The method `applySettings`. -/
def applySettings (m : Model) : Except Panic Model := do
  let m : Model :=
    match m.settingsInputs.get "baseURL" with
    | some urlInput =>
      if urlInput.Value ≠ "" then
        { m with baseURL := urlInput.Value, client := some (TrimSuffix urlInput.Value "/") }
      else m
    | none => m
  let newPort : Int :=
    match m.settingsInputs.get "port" with
    | some portInput =>
      if portInput.Value ≠ "" then (sscanInt portInput.Value).getD m.port else m.port
    | none => m.port
  let notify : Model :=
    { m with settingsCalls := m.settingsCalls ++ [(m.baseURL, newPort)], port := newPort }
  if m.onSettingsChange then
    if m.port ≠ newPort then .ok notify
    else
      match m.settingsInputs.get "baseURL" with
      | none => .error .nilDereference
      | some urlInput => if m.baseURL ≠ urlInput.Value then .ok notify else .ok m
  else .ok m

/-- The method `updateCurrentView`; `seed` selects the order of its `range` loop.
The commands of the components (cursor blink) are `Cmd.none`. -/
def updateCurrentView (m : Model) (msg : Msg) (seed : Nat) : Except Panic (Model × Cmd) :=
  let viaParams : Model :=
    { m with
      paramInputs := atVisited m.paramInputs seed m.focusedInput (fun f => f.Update msg) }
  match m.mode with
  | .viewList => .ok ({ m with list := m.list.Update msg }, .none)
  | .viewRequest =>
    if m.focusedInput = (m.paramInputs.length : Int) then do
      let sel ← derefSelected m
      if sel.HasBody then .ok ({ m with bodyInput := m.bodyInput.Update msg }, .none)
      else .ok (viaParams, .none)
    else .ok (viaParams, .none)
  | .viewAuth =>
    .ok ({ m with
           authInputs := atVisited m.authInputs seed m.focusedInput (fun f => f.Update msg) },
         .none)
  | .viewSettings =>
    .ok ({ m with
           settingsInputs :=
             atVisited m.settingsInputs seed m.focusedInput (fun f => f.Update msg) },
         .none)
  | _ => .ok (m, .none)

/-- The method `handleKeyPress` for the key `key`; `s1` and `s2` select the orders
of the `range` loops run while the key is handled. -/
def handleKeyPress (m : Model) (key : String) (s1 s2 : Nat) : Except Panic (Model × Cmd) :=
  match m.mode with
  | .viewList =>
    if keyMatches key keys.Quit then .ok (m, .Quit)
    else if keyMatches key keys.Select then
      match m.list.SelectedItem with
      | some i => .ok ({ m with selected := some i, mode := .viewDetail }, .none)
      | none => .ok (m, .none)
    else if keyMatches key keys.Server then do
      let m ← Model.initAuthInputs { m with mode := .viewAuth }
      .ok (m, .none)
    else if keyMatches key keys.Settings then
      .ok (Model.initSettingsInputs { m with mode := .viewSettings }, .none)
    else updateCurrentView m (.KeyMsg key) s1
  | .viewDetail =>
    if keyMatches key keys.Quit then .ok (m, .Quit)
    else if keyMatches key keys.Back then
      .ok ({ m with mode := .viewList, selected := none }, .none)
    else if keyMatches key keys.Select then do
      let m ← Model.initRequestInputs { m with mode := .viewRequest } s1
      .ok (m, .none)
    else updateCurrentView m (.KeyMsg key) s1
  | .viewRequest =>
    if key = "esc" then .ok ({ m with mode := .viewDetail }, .none)
    else if key = "ctrl+s" then .ok (m, .sendRequest m)
    else if key = "tab" ∨ key = "shift+tab" then do
      let m ← Model.cycleFocus m (key == "shift+tab") s1 s2
      .ok (m, .none)
    else updateCurrentView m (.KeyMsg key) s1
  | .viewResponse =>
    if keyMatches key keys.Back then .ok ({ m with mode := .viewRequest }, .none)
    else if keyMatches key keys.Quit then .ok (m, .Quit)
    else updateCurrentView m (.KeyMsg key) s1
  | .viewAuth =>
    if key = "esc" then .ok ({ m with mode := .viewList }, .none)
    else if key = "ctrl+s" then do
      let m ← Model.applyAuth m
      .ok ({ m with mode := .viewList }, .none)
    else if key = "tab" ∨ key = "shift+tab" then do
      let m ← Model.cycleFocus m (key == "shift+tab") s1 s2
      .ok (m, .none)
    else if key = "up" ∨ key = "down" then
      if key = "up" ∧ m.selectedScheme > 0 then do
        let m ← Model.initAuthInputs { m with selectedScheme := m.selectedScheme - 1 }
        .ok (m, .none)
      else if key = "down" ∧ m.selectedScheme < (m.authSchemes.length : Int) - 1 then do
        let m ← Model.initAuthInputs { m with selectedScheme := m.selectedScheme + 1 }
        .ok (m, .none)
      else .ok (m, .none)
    else updateCurrentView m (.KeyMsg key) s1
  | .viewSettings =>
    if key = "esc" then .ok ({ m with mode := .viewList }, .none)
    else if key = "ctrl+s" then do
      let m ← Model.applySettings m
      .ok ({ m with mode := .viewList }, .none)
    else if key = "tab" ∨ key = "shift+tab" then do
      let m ← Model.cycleFocus m (key == "shift+tab") s1 s2
      .ok (m, .none)
    else updateCurrentView m (.KeyMsg key) s1

/-- The method `Update`. -/
def Update (m : Model) (msg : Msg) (s1 s2 : Nat) : Except Panic (Model × Cmd) :=
  match msg with
  | .WindowSizeMsg w h => .ok ({ m with width := w, height := h }, .none)
  | .responseMsg r => .ok ({ m with response := some r, mode := .viewResponse }, .none)
  | .KeyMsg key => handleKeyPress m key s1 s2
  | .other => updateCurrentView m msg s1

end Model

/-! ## The event loop

Bubble Tea hands the messages to `Update` one at a time.  A `responseMsg` is the
result of a command returned by `sendRequest`, so it arrives only while a request
is in flight. -/

/-- The program between two events: the model, the number of requests in flight,
and whether `tea.Quit` was returned. -/
structure Sys where
  model : Model
  inflight : Nat
  quit : Bool
  deriving DecidableEq, Repr

/-- An event: the message, the seeds of the `range` loops of `Update`, and the
seed of the `range` loop of the `sendRequest` closure. -/
structure Event where
  msg : Msg
  s1 : Nat
  s2 : Nat
  s3 : Nat
  deriving DecidableEq, Repr

/-- A key press, with all `range` loops in storage order. -/
def press (key : String) : Event := { msg := .KeyMsg key, s1 := 0, s2 := 0, s3 := 0 }

/-- The arrival of a response. -/
def arrive (r : Response) : Event := { msg := .responseMsg r, s1 := 0, s2 := 0, s3 := 0 }

/-- One turn of the event loop.  After `tea.Quit`, and for a `responseMsg` with no
request in flight, nothing happens. -/
def step (s : Sys) (e : Event) : Except Panic Sys :=
  if s.quit then .ok s
  else
    match e.msg with
    | .responseMsg _ =>
      if s.inflight = 0 then .ok s
      else do
        let r ← s.model.Update e.msg e.s1 e.s2
        .ok { s with model := r.1, inflight := s.inflight - 1 }
    | _ => do
      let r ← s.model.Update e.msg e.s1 e.s2
      match r.2 with
      | .none => .ok { s with model := r.1 }
      | .Quit => .ok { s with model := r.1, quit := true }
      | .sendRequest snapshot => do
        let _ ← snapshot.sendRequest e.s3
        .ok { s with model := r.1, inflight := s.inflight + 1 }

/-- The event loop over a list of events. -/
def run : Sys → List Event → Except Panic Sys
  | s, [] => .ok s
  | s, e :: es =>
    match step s e with
    | .ok s' => run s' es
    | .error p => .error p

/-- The program at start-up. -/
def start (m : Model) : Sys := { model := m, inflight := 0, quit := false }

/-- The states the program can be in: those the event loop reaches from a model
built by `NewModel`. -/
def Reachable (s : Sys) : Prop :=
  ∃ (spec : Spec) (endpoints : List Endpoint) (seed : Nat) (baseURL : String) (port : Int)
    (cb : Bool) (events : List Event),
    run (start (NewModel spec endpoints seed baseURL port cb)) events = .ok s

/-! ## Sample data -/

/-- A parameter with only a name and a location. -/
def mkParam (name loc : String) : Parameter :=
  { Name := name, In := loc, Required := false, Description := "", Schema := "string",
    Example := "" }

/-- An endpoint with only a method, a path, parameters and a body flag. -/
def mkEndpoint (method path : String) (ps : List Parameter) (hasBody : Bool) : Endpoint :=
  { Path := path, Method := method, Summary := "", Description := "", Tags := [],
    Parameters := ps, RequestBody := "", HasBody := hasBody }

/-- A field that holds the value `v`. -/
def fieldWith (v : String) : InputField := (NewInputField "" "" false).SetValue v

/-- An empty, unfocused body field. -/
def emptyBody : TextArea := { Value := "", Focused := false }

/-- The endpoint `GET /users/{id}` with path parameter `id` and query parameter
`active`. -/
def usersEndpoint : Endpoint :=
  mkEndpoint "get" "/users/{id}" [mkParam "id" "path", mkParam "active" "query"] false

/-- The endpoint `GET /users/{id}` declaring `id` twice: in the path and in the query. -/
def twoIdEndpoint : Endpoint :=
  mkEndpoint "get" "/users/{id}" [mkParam "id" "path", mkParam "id" "query"] false

/-- The endpoint `GET /users/{id}` declaring `id` twice, the query parameter first. -/
def twoIdQueryFirst : Endpoint :=
  mkEndpoint "get" "/users/{id}" [mkParam "id" "query", mkParam "id" "path"] false

/-- The endpoint `GET /{a}/{b}` with two path parameters. -/
def abEndpoint : Endpoint :=
  mkEndpoint "get" "/{a}/{b}" [mkParam "a" "path", mkParam "b" "path"] false

/-- The endpoint `POST /items/{id}` with one path parameter and a body. -/
def itemEndpoint : Endpoint :=
  mkEndpoint "post" "/items/{id}" [mkParam "id" "path"] true

/-- The endpoint `GET /ping` with no parameter and no body. -/
def pingEndpoint : Endpoint := mkEndpoint "get" "/ping" [] false

/-- A specification that declares the api-key scheme `ApiKeyAuth` (in the header
`X-API-Key`) and the bearer scheme `Tok`. -/
def demoSpec : Spec :=
  { SecuritySchemes := some
      [("ApiKeyAuth", { Typ := "apiKey", Scheme := "", Name := "X-API-Key", In := "header" }),
       ("Tok", { Typ := "http", Scheme := "bearer", Name := "", In := "" })],
    Title := "Demo", Version := "1" }

/-- The model at start-up for `demoSpec` with the endpoints `itemEndpoint` and
`pingEndpoint`; the schemes are offered as none, ApiKeyAuth, Tok. -/
def demoModel : Model :=
  NewModel demoSpec [itemEndpoint, pingEndpoint] 0 "http://localhost:3000" 8080 true

/-- A manager whose active configuration is `config`. -/
def managerWith (config : AuthConfig) : AuthManager :=
  { config := some config, spec := demoSpec }

/-- A bearer configuration with the given token. -/
def bearerConfig (token : String) : AuthConfig :=
  { AuthConfig.zero with Typ := AuthTypeBearer, Token := token }

/-- An outgoing request `GET http://localhost:3000/users` with one header and no
Authorization header. -/
def plainRequest : HttpRequest :=
  { Method := "GET", URL := "http://localhost:3000/users", Query := [],
    Header := [("Accept", ["application/json"])], Body := "" }

/-- A stand-in for `http.NewRequestWithContext` that never fails: the URL is kept
as given and the request starts without headers. -/
def simpleNewRequest (method url body : String) : Except String HttpRequest :=
  .ok { Method := method, URL := url, Query := [], Header := [], Body := body }

/-- A stand-in for `httpClient.Do`: every call is answered with `200 OK`. -/
def okTransport (_ : HttpRequest) : Except String HttpResponse :=
  .ok { StatusCode := 200, Status := "200 OK", Header := [], Body := .ok "" }

/-- The state after the events, from the start-up state of `m` (the start-up state
itself if the program panics on the way). -/
def afterEvents (m : Model) (events : List Event) : Sys :=
  match run (start m) events with
  | .ok s => s
  | .error _ => start m

/-- The user opens the auth view, moves to `ApiKeyAuth`, types "secret" and
submits. -/
def apiKeyEvents : List Event :=
  [press "s", press "down", press "s", press "e", press "c", press "r", press "e",
   press "t", press "ctrl+s"]

/-- The user opens the auth view and moves to the bearer scheme `Tok`, leaving
the token field empty. -/
def emptyTokenEvents : List Event := [press "s", press "down", press "down"]

/-- The user opens the request form of `itemEndpoint`, moves the focus to the body
field, sends, goes back to the list, selects `pingEndpoint`; then the response
arrives and the user leaves the response view. -/
def lateResponseEvents : List Event :=
  [press "enter", press "enter", press "tab", press "ctrl+s", press "esc", press "esc",
   press "down", press "enter", arrive Response.zero, press "esc"]

/-- The number of fields of the request form: the parameter fields, plus the body
field if the selected endpoint has a body. -/
def requestFieldCount (m : Model) : Int :=
  (m.paramInputs.length : Int) +
    (match m.selected with
     | some sel => if sel.HasBody then 1 else 0
     | none => 0)

/-- The number of fields of the active form, when the mode shows a form. -/
def activeFieldCount (m : Model) : Option Int :=
  match m.mode with
  | .viewRequest => some (requestFieldCount m)
  | .viewAuth => some (m.authInputs.length : Int)
  | .viewSettings => some (m.settingsInputs.length : Int)
  | _ => none

/-- The focus-index invariant: with `N` the number of fields of the active form,
the focus index is in `[0, N)`, or `N = 0` and the index is 0. -/
def FocusInvariant (m : Model) : Prop :=
  match activeFieldCount m with
  | some n => (0 ≤ m.focusedInput ∧ m.focusedInput < n) ∨ (n = 0 ∧ m.focusedInput = 0)
  | none => True

instance (m : Model) : Decidable (FocusInvariant m) := by
  unfold FocusInvariant; split <;> infer_instance

/-- The required credential of the active mode is empty: the token for bearer and
oauth2, the key value for api-key, the username or the password for basic. -/
def MissingCredential (c : AuthConfig) : Prop :=
  (c.Typ = AuthTypeBearer ∧ c.Token = "") ∨
  (c.Typ = AuthTypeOAuth2 ∧ c.Token = "") ∨
  (c.Typ = AuthTypeAPIKey ∧ c.APIKey = "") ∨
  (c.Typ = AuthTypeBasic ∧ (c.Username = "" ∨ c.Password = ""))

instance (c : AuthConfig) : Decidable (MissingCredential c) := by
  unfold MissingCredential; infer_instance

/-- An api-key configuration that sends the key as the cookie `sid`. -/
def cookieKeyConfig (value : String) : AuthConfig :=
  { AuthConfig.zero with
    Typ := AuthTypeAPIKey, APIKey := value, APIKeyIn := "cookie", KeyName := "sid" }

/-- A cookie name without line feed and carriage return. -/
def CleanCookieName (n : String) : Prop := ∀ c ∈ n.data, c.toNat ≠ 10 ∧ c.toNat ≠ 13

/-- A cookie value of valid cookie bytes, without space and comma. -/
def CleanCookieValue (v : String) : Prop :=
  ∀ c ∈ v.data, validCookieValueByte c = true ∧ c ≠ ' ' ∧ c ≠ ','

instance (n : String) : Decidable (CleanCookieName n) := by
  unfold CleanCookieName; infer_instance

instance (v : String) : Decidable (CleanCookieValue v) := by
  unfold CleanCookieValue; infer_instance

/-- Parameter names are unique within each location. -/
def uniquePerLocation (sel : Endpoint) : Prop :=
  (sel.Parameters.map (fun p => (p.Name, p.In))).Nodup

instance (sel : Endpoint) : Decidable (uniquePerLocation sel) := by
  unfold uniquePerLocation; infer_instance

/-- The location under which `sendRequest` files the field named `name`: the
location of the first declared parameter of that name. -/
def locationOf (params : List Parameter) (name : String) : Option String :=
  (params.find? (fun p => p.Name == name)).map (fun p => p.In)

/-! ## Views and repeated focus steps -/

/-- The dereferences of the method `View` (model.go 321-337).  The rendered text
is left out; what is kept is whether rendering completes: `detailView` and
`requestView` read `m.selected.Method`, `responseView` reads `m.response.Error`,
`authView` indexes `m.authSchemes` when the selected index is below its length. -/
def Model.View (m : Model) : Except Panic Unit :=
  match m.mode with
  | .viewList => .ok ()
  | .viewDetail =>
    match m.selected with
    | some _ => .ok ()
    | none => .error .nilDereference
  | .viewRequest =>
    match m.selected with
    | some _ => .ok ()
    | none => .error .nilDereference
  | .viewResponse =>
    match m.response with
    | some _ => .ok ()
    | none => .error .nilDereference
  | .viewAuth =>
    if m.selectedScheme < (m.authSchemes.length : Int) then
      match indexSlice m.authSchemes m.selectedScheme with
      | .ok _ => .ok ()
      | .error p => .error p
    else .ok ()
  | .viewSettings => .ok ()

/-- The method `cycleFocus` applied once for every pair of seeds of the list, in
one direction. -/
def cycleTimes (reverse : Bool) : Model → List (Nat × Nat) → Except Panic Model
  | m, [] => .ok m
  | m, s :: rest =>
    match m.cycleFocus reverse s.1 s.2 with
    | .ok m' => cycleTimes reverse m' rest
    | .error p => .error p

/-- The selected-endpoint invariant: in the modes Detail, RequestForm and
ResponseView an endpoint is selected. -/
def SelectedInvariant (m : Model) : Prop :=
  (m.mode = .viewDetail ∨ m.mode = .viewRequest ∨ m.mode = .viewResponse) →
    m.selected ≠ none

instance (m : Model) : Decidable (SelectedInvariant m) := by
  unfold SelectedInvariant; infer_instance

/-! ## More sample data -/

/-- The endpoint `PUT /users/{id}` whose path parameter `id` has the example "42"
and whose body has the example "[1, 2]". -/
def exampleEndpoint : Endpoint :=
  { Path := "/users/{id}", Method := "put", Summary := "", Description := "", Tags := [],
    Parameters :=
      [{ Name := "id", In := "path", Required := true, Description := "", Schema := "string",
         Example := "42" }],
    RequestBody := "[1, 2]", HasBody := true }

/-- The model at start-up with `exampleEndpoint` as the only endpoint. -/
def exampleModel : Model :=
  NewModel demoSpec [exampleEndpoint] 0 "http://localhost:3000" 8080 true

/-- A specification that declares the scheme `Digest`, of type `http` with the
scheme `digest`. -/
def digestSpec : Spec :=
  { SecuritySchemes := some
      [("Digest", { Typ := "http", Scheme := "digest", Name := "", In := "" })],
    Title := "Demo", Version := "1" }

/-- The user opens the request form of the first endpoint. -/
def openFormEvents : List Event := [press "enter", press "enter"]

/-- The user opens the request form of the first endpoint, moves the focus to the
body field, types "x", cancels and opens the form again. -/
def reopenEvents : List Event :=
  [press "enter", press "enter", press "tab", press "x", press "esc", press "enter"]

/-- The user opens the settings view, appends "x" to the base URL and submits. -/
def baseURLEvents : List Event := [press "c", press "x", press "ctrl+s"]

/-- The user opens the request form of the first endpoint, sends, goes back to the
list; then the response arrives and the user leaves the response view. -/
def staleResponseEvents : List Event :=
  [press "enter", press "enter", press "ctrl+s", press "esc", press "esc",
   arrive Response.zero, press "esc"]

/-! ## internal/api/types.go: `extractParameters`

Of `kin-openapi/openapi3` the embedding keeps what `extractParameters` reads. -/

namespace openapi3

/-- The example of a schema when it is not nil (an `interface{}`): a string, or
any other value, given by its rendering with the verb `%v`. -/
inductive ExampleValue where
  | str (s : String)
  | other (rendered : String)
  deriving DecidableEq, Repr

/-- An `openapi3.Schema`: `Typ` is the field `Type`, a pointer to a slice of type
names (`none` for nil); `Example` is `none` for nil. -/
structure Schema where
  Typ : Option (List String)
  Example : Option ExampleValue
  deriving DecidableEq, Repr

/-- An `openapi3.SchemaRef`; `Value` is `none` for nil. -/
structure SchemaRef where
  Value : Option Schema
  deriving DecidableEq, Repr

/-- An `openapi3.Parameter`; `Schema` is `none` for nil. -/
structure Parameter where
  Name : String
  In : String
  Required : Bool
  Description : String
  Schema : Option SchemaRef
  deriving DecidableEq, Repr

/-- An `openapi3.ParameterRef`; `Value` is `none` for nil. -/
structure ParameterRef where
  Value : Option Parameter
  deriving DecidableEq, Repr

/-- An `openapi3.Operation`: its parameter references, in declaration order. -/
structure Operation where
  Parameters : List ParameterRef
  deriving DecidableEq, Repr

/-- The method `Types.Slice`: the slice behind the pointer, nil for a nil pointer. -/
def Slice (types : Option (List String)) : List String := types.getD []

end openapi3

/-- The function `formatExample` (types.go 103-112); `ex` is its argument
`example`. -/
def formatExample (ex : Option openapi3.ExampleValue) : String :=
  match ex with
  | none => ""
  | some (.str s) => s
  | some (.other rendered) => rendered

/-- The body of the loop of `extractParameters` (types.go 82-97) for a reference
whose value `p` is present. -/
def extractParameter (p : openapi3.Parameter) : Except Panic Parameter :=
  let param : Parameter :=
    { Name := p.Name, In := p.In, Required := p.Required, Description := p.Description,
      Schema := "", Example := "" }
  match p.Schema with
  | none => .ok param
  | some schemaRef =>
    match schemaRef.Value with
    | none => .ok param
    | some schema =>
      match indexSlice (openapi3.Slice schema.Typ) 0 with
      | .error panic => .error panic
      | .ok typeName =>
        let param : Parameter := { param with Schema := typeName }
        match schema.Example with
        | some _ => .ok { param with Example := formatExample schema.Example }
        | none => .ok param

/-- The loop of `extractParameters` over the remaining references, `params` being
the slice built so far. -/
def extractLoop : List openapi3.ParameterRef → List Parameter → Except Panic (List Parameter)
  | [], params => .ok params
  | paramRef :: rest, params =>
    match paramRef.Value with
    | none => extractLoop rest params
    | some p =>
      match extractParameter p with
      | .ok param => extractLoop rest (params ++ [param])
      | .error panic => .error panic

/-- The function `extractParameters` (types.go 74-101). -/
def extractParameters (op : openapi3.Operation) : Except Panic (List Parameter) :=
  extractLoop op.Parameters []

/-- A present parameter reference with the given name, location and schema. -/
def paramRefWith (name loc : String) (schema : Option openapi3.SchemaRef) :
    openapi3.ParameterRef :=
  { Value := some
      { Name := name, In := loc, Required := true, Description := "", Schema := schema } }

/-- A schema reference whose schema declares the given type list and no example. -/
def schemaWithTypes (types : Option (List String)) : openapi3.SchemaRef :=
  { Value := some { Typ := types, Example := none } }

/-- An operation with the typed path parameter `id` and the query parameter
`filter`, whose schema is present and declares no type. -/
def untypedOperation : openapi3.Operation :=
  { Parameters :=
      [paramRefWith "id" "path" (some (schemaWithTypes (some ["string"]))),
       paramRefWith "filter" "query" (some (schemaWithTypes (some [])))] }

/-- An operation with the typed path parameter `id`, a reference without value,
and the query parameter `limit` without schema. -/
def typedOperation : openapi3.Operation :=
  { Parameters :=
      [paramRefWith "id" "path" (some (schemaWithTypes (some ["string"]))),
       { Value := none },
       paramRefWith "limit" "query" none] }

/-- The parameter's schema, when present, declares at least one type. -/
def HasTypeIfSchema (p : openapi3.Parameter) : Prop :=
  ∀ schemaRef schema, p.Schema = some schemaRef → schemaRef.Value = some schema →
    openapi3.Slice schema.Typ ≠ []

/-! ## Theorems -/

namespace GoMap

theorem get_set_self {V : Type} (m : GoMap V) (k : String) (v : V) :
    (m.set k v).get k = some v := by
  induction m with
  | nil => simp [set, get, List.lookup]
  | cons e t ih =>
    obtain ⟨k', v'⟩ := e
    by_cases h : k' = k
    · simp [set, h, get, List.lookup]
    · have h' : (k == k') = false := by simpa using fun h'' => h h''.symm
      simp only [set, h, if_false, get, List.lookup, h']
      exact ih

theorem get_set_ne {V : Type} (m : GoMap V) (k k' : String) (v : V) (hne : k' ≠ k) :
    (m.set k v).get k' = m.get k' := by
  induction m with
  | nil =>
    have h' : (k' == k) = false := by simpa using hne
    simp [set, get, List.lookup, h']
  | cons e t ih =>
    obtain ⟨a, b⟩ := e
    by_cases h : a = k
    · subst h
      have h' : (k' == a) = false := by simpa using hne
      simp [set, get, List.lookup, h']
    · simp only [set, h, if_false, get, List.lookup]
      cases hka : (k' == a)
      · exact ih
      · rfl

theorem cons_eraseIdx_perm {α : Type} :
    ∀ (l : List α) (i : Nat) (x : α), l[i]? = some x → (x :: l.eraseIdx i).Perm l
  | [], _, _, h => by simp at h
  | a :: t, 0, x, h => by
    simp only [List.getElem?_cons_zero, Option.some.injEq] at h
    subst h
    exact List.Perm.refl _
  | a :: t, i + 1, x, h => by
    simp only [List.getElem?_cons_succ] at h
    simp only [List.eraseIdx_cons_succ]
    exact (List.Perm.swap a x _).trans ((cons_eraseIdx_perm t i x h).cons a)

theorem permuteAux_perm {α : Type} :
    ∀ (n seed : Nat) (l : List α), l.length = n → (permuteAux n seed l).Perm l
  | 0, _, l, h => by
    have : l = [] := List.length_eq_zero.mp h
    subst this
    exact List.Perm.refl _
  | n + 1, seed, l, h => by
    have hlt : seed % (n + 1) < l.length := by
      rw [h]; exact Nat.mod_lt _ (Nat.succ_pos n)
    have hget : l[seed % (n + 1)]? = some l[seed % (n + 1)] := List.getElem?_eq_getElem hlt
    simp only [permuteAux, hget]
    have hlen : (l.eraseIdx (seed % (n + 1))).length = n := by
      have := List.length_eraseIdx_of_lt hlt
      omega
    exact ((permuteAux_perm n (seed / (n + 1)) _ hlen).cons _).trans
      (cons_eraseIdx_perm l _ _ hget)

/-- Whatever the seed, a `range` loop visits every entry of the map exactly once. -/
theorem range_perm {V : Type} (m : GoMap V) (seed : Nat) : (m.range seed).Perm m :=
  permuteAux_perm m.length seed m rfl

end GoMap

theorem applyParam_query (params : List Parameter) (req : Request) (name val k : String) :
    (applyParam params req name val).QueryParams.get k =
      if k = name ∧ locationOf params name = some "query" then some val
      else req.QueryParams.get k := by
  unfold applyParam locationOf
  cases hf : params.find? (fun p => p.Name == name) with
  | none => simp
  | some p =>
    by_cases hq : p.In = "query"
    · by_cases hk : k = name
      · subst hk; simp [hq, GoMap.get_set_self]
      · simp [hq, hk, GoMap.get_set_ne]
    · by_cases hh : p.In = "header"
      · simp [hq, hh]
      · by_cases hp : p.In = "path" <;> simp [hq, hh, hp]

theorem applyParam_header (params : List Parameter) (req : Request) (name val k : String) :
    (applyParam params req name val).Headers.get k =
      if k = name ∧ locationOf params name = some "header" then some val
      else req.Headers.get k := by
  unfold applyParam locationOf
  cases hf : params.find? (fun p => p.Name == name) with
  | none => simp
  | some p =>
    by_cases hq : p.In = "query"
    · simp [hq]
    · by_cases hh : p.In = "header"
      · by_cases hk : k = name
        · subst hk; simp [hh, GoMap.get_set_self]
        · simp [hh, hk, GoMap.get_set_ne]
      · by_cases hp : p.In = "path" <;> simp [hq, hh, hp]

theorem lookup_none_of_not_mem {V : Type} (t : List (String × V)) (k : String)
    (h : k ∉ t.map Prod.fst) : List.lookup k t = none := by
  induction t with
  | nil => rfl
  | cons e t ih =>
    obtain ⟨a, b⟩ := e
    simp only [List.map_cons, List.mem_cons, not_or] at h
    have h' : (k == a) = false := by simpa using h.1
    simp only [List.lookup, h']
    exact ih h.2

/-- The query map after the outer loop of `sendRequest`, entry by entry. -/
theorem foldl_query (sel : Endpoint) (k : String) :
    ∀ (visited : List (String × InputField)) (req : Request),
      (visited.map Prod.fst).Nodup →
      (visited.foldl (visitParam sel) req).QueryParams.get k =
        match List.lookup k visited with
        | some f =>
          if f.Value ≠ "" ∧ locationOf sel.Parameters k = some "query" then some f.Value
          else req.QueryParams.get k
        | none => req.QueryParams.get k := by
  intro visited
  induction visited with
  | nil => intro req _; rfl
  | cons e t ih =>
    intro req hnd
    obtain ⟨n, f⟩ := e
    simp only [List.map_cons, List.nodup_cons] at hnd
    rw [List.foldl_cons, ih _ hnd.2]
    by_cases hk : k = n
    · subst hk
      rw [lookup_none_of_not_mem t k hnd.1]
      simp only [List.lookup, beq_self_eq_true, visitParam]
      by_cases hv : f.Value = ""
      · simp [hv]
      · simp [hv, applyParam_query]
    · have h' : (k == n) = false := by simpa using hk
      have hkeep : (visitParam sel req (n, f)).QueryParams.get k = req.QueryParams.get k := by
        simp only [visitParam]
        by_cases hv : f.Value = ""
        · simp [hv]
        · simp [hv, applyParam_query, hk]
      simp only [List.lookup, h', hkeep]

/-- The header map after the outer loop of `sendRequest`, entry by entry. -/
theorem foldl_header (sel : Endpoint) (k : String) :
    ∀ (visited : List (String × InputField)) (req : Request),
      (visited.map Prod.fst).Nodup →
      (visited.foldl (visitParam sel) req).Headers.get k =
        match List.lookup k visited with
        | some f =>
          if f.Value ≠ "" ∧ locationOf sel.Parameters k = some "header" then some f.Value
          else req.Headers.get k
        | none => req.Headers.get k := by
  intro visited
  induction visited with
  | nil => intro req _; rfl
  | cons e t ih =>
    intro req hnd
    obtain ⟨n, f⟩ := e
    simp only [List.map_cons, List.nodup_cons] at hnd
    rw [List.foldl_cons, ih _ hnd.2]
    by_cases hk : k = n
    · subst hk
      rw [lookup_none_of_not_mem t k hnd.1]
      simp only [List.lookup, beq_self_eq_true, visitParam]
      by_cases hv : f.Value = ""
      · simp [hv]
      · simp [hv, applyParam_header]
    · have h' : (k == n) = false := by simpa using hk
      have hkeep : (visitParam sel req (n, f)).Headers.get k = req.Headers.get k := by
        simp only [visitParam]
        by_cases hv : f.Value = ""
        · simp [hv]
        · simp [hv, applyParam_header, hk]
      simp only [List.lookup, h', hkeep]

/-- Request assembly, query and header maps, for every endpoint and every set of
fields (keys pairwise distinct, visited in any order): the query map holds exactly
the non-empty field values whose name is filed under `query`, the header map those
filed under `header`, where a name is filed under the location of the FIRST
declared parameter of that name. -/
theorem buildRequest_maps (sel : Endpoint) (visited : List (String × InputField))
    (body : TextArea) (hnd : (visited.map Prod.fst).Nodup) (k v : String) :
    ((buildRequest sel visited body).QueryParams.get k = some v ↔
      ∃ f, List.lookup k visited = some f ∧ f.Value = v ∧ v ≠ "" ∧
        locationOf sel.Parameters k = some "query") ∧
    ((buildRequest sel visited body).Headers.get k = some v ↔
      ∃ f, List.lookup k visited = some f ∧ f.Value = v ∧ v ≠ "" ∧
        locationOf sel.Parameters k = some "header") := by
  have hq : (buildRequest sel visited body).QueryParams =
      (visited.foldl (visitParam sel)
        { Method := ToUpper sel.Method, Path := sel.Path, QueryParams := [], Headers := [],
          Body := "", ContentType := "" }).QueryParams := by
    unfold buildRequest; split <;> rfl
  have hh : (buildRequest sel visited body).Headers =
      (visited.foldl (visitParam sel)
        { Method := ToUpper sel.Method, Path := sel.Path, QueryParams := [], Headers := [],
          Body := "", ContentType := "" }).Headers := by
    unfold buildRequest; split <;> rfl
  rw [hq, hh, foldl_query sel k visited _ hnd, foldl_header sel k visited _ hnd]
  constructor
  · cases hl : List.lookup k visited with
    | none => simp [GoMap.get, List.lookup]
    | some f =>
      by_cases hc : f.Value ≠ "" ∧ locationOf sel.Parameters k = some "query"
      · simp only [if_pos hc, Option.some.injEq]
        constructor
        · intro h; exact ⟨f, rfl, h, h ▸ hc.1, hc.2⟩
        · rintro ⟨f', hf', hv, -, -⟩; cases hf'; exact hv
      · simp only [if_neg hc, GoMap.get, List.lookup]
        constructor
        · intro h; cases h
        · rintro ⟨f', hf', hv, hne, hloc⟩
          cases hf'
          exact absurd ⟨hv ▸ hne, hloc⟩ hc
  · cases hl : List.lookup k visited with
    | none => simp [GoMap.get, List.lookup]
    | some f =>
      by_cases hc : f.Value ≠ "" ∧ locationOf sel.Parameters k = some "header"
      · simp only [if_pos hc, Option.some.injEq]
        constructor
        · intro h; exact ⟨f, rfl, h, h ▸ hc.1, hc.2⟩
        · rintro ⟨f', hf', hv, -, -⟩; cases hf'; exact hv
      · simp only [if_neg hc, GoMap.get, List.lookup]
        constructor
        · intro h; cases h
        · rintro ⟨f', hf', hv, hne, hloc⟩
          cases hf'
          exact absurd ⟨hv ▸ hne, hloc⟩ hc

/-- The path after the outer loop of `sendRequest`: the placeholders of the fields
with a non-empty value that are filed under `path` are replaced one after the
other, in the order the fields are visited. -/
theorem foldl_path (sel : Endpoint) :
    ∀ (visited : List (String × InputField)) (req : Request),
      (visited.foldl (visitParam sel) req).Path =
        (visited.filter (fun e => decide (e.2.Value ≠ "") &&
            (locationOf sel.Parameters e.1 == some "path"))).foldl
          (fun p e => ReplaceAll p ("\x7b" ++ e.1 ++ "\x7d") e.2.Value) req.Path := by
  intro visited
  induction visited with
  | nil => intro req; rfl
  | cons e t ih =>
    intro req
    obtain ⟨n, f⟩ := e
    rw [List.foldl_cons, ih]
    by_cases hv : f.Value = ""
    · simp [visitParam, hv, List.filter]
    · cases hf : sel.Parameters.find? (fun p => p.Name == n) with
      | none => simp [visitParam, hv, applyParam, locationOf, hf, List.filter]
      | some p =>
        by_cases hq : p.In = "query"
        · simp [visitParam, hv, applyParam, locationOf, hf, List.filter, hq]
        · by_cases hh : p.In = "header"
          · simp [visitParam, hv, applyParam, locationOf, hf, List.filter, hq, hh]
          · by_cases hp : p.In = "path"
            · simp [visitParam, hv, applyParam, locationOf, hf, List.filter, hq, hh, hp]
            · have hp' : (p.In == "path") = false := by simpa using hp
              simp [visitParam, hv, applyParam, locationOf, hf, List.filter, hq, hh, hp, hp']

/-- C1 (the code at the failing input).  The endpoint declares `id` in the path
and in the query, so its names are unique within each location, and the field
`id` holds "7": the query parameter `id` has a non-empty value, yet the assembled
query map has no entry for `id`; the value went to the path only. -/
theorem C1_query_parameter_lost :
    uniquePerLocation twoIdEndpoint ∧
    mkParam "id" "query" ∈ twoIdEndpoint.Parameters ∧
    (fieldWith "7").Value ≠ "" ∧
    (buildRequest twoIdEndpoint [("id", fieldWith "7")] emptyBody).QueryParams.get "id"
      = none ∧
    (buildRequest twoIdEndpoint [("id", fieldWith "7")] emptyBody).Path = "/users/7" := by
  decide

/-- C2 (the code at the failing input).  On the scenario of the specification
the path is `/users/42` and the query map is `active -> true`.  On the endpoint
that declares `id` in the query first and in the path second, the path parameter
`id` has the non-empty value "42", yet the placeholder stays in the assembled
path; the value went to the query map only. -/
theorem C2_path_placeholder_kept :
    (buildRequest usersEndpoint [("id", fieldWith "42"), ("active", fieldWith "true")]
      emptyBody).Path = "/users/42" ∧
    (buildRequest usersEndpoint [("id", fieldWith "42"), ("active", fieldWith "true")]
      emptyBody).QueryParams = [("active", "true")] ∧
    mkParam "id" "path" ∈ twoIdQueryFirst.Parameters ∧
    (buildRequest twoIdQueryFirst [("id", fieldWith "42")] emptyBody).Path
      = "/users/{id}" ∧
    (buildRequest twoIdQueryFirst [("id", fieldWith "42")] emptyBody).QueryParams
      = [("id", "42")] := by
  decide

/-- C3 (the code at the failing input).  For `GET /{a}/{b}` with the field `a`
holding "{b}" and the field `b` holding "x", two visiting orders of the same
field map assemble different paths. -/
theorem C3_path_depends_on_visiting_order :
    GoMap.range [("a", fieldWith "{b}"), ("b", fieldWith "x")] 0
      = [("a", fieldWith "{b}"), ("b", fieldWith "x")] ∧
    GoMap.range [("a", fieldWith "{b}"), ("b", fieldWith "x")] 1
      = [("b", fieldWith "x"), ("a", fieldWith "{b}")] ∧
    (buildRequest abEndpoint
      (GoMap.range [("a", fieldWith "{b}"), ("b", fieldWith "x")] 0) emptyBody).Path
      = "/x/x" ∧
    (buildRequest abEndpoint
      (GoMap.range [("a", fieldWith "{b}"), ("b", fieldWith "x")] 1) emptyBody).Path
      = "/{b}/x" := by
  decide

theorem applyAuth_bearer_eq (am : AuthManager) (c : AuthConfig) (req : HttpRequest)
    (hc : am.config = some c) (ht : c.Typ = AuthTypeBearer ∨ c.Typ = AuthTypeOAuth2)
    (hT : c.Token ≠ "") :
    am.ApplyAuth req = (req.setHeader "Authorization" ("Bearer " ++ c.Token), none) := by
  unfold AuthManager.ApplyAuth
  rw [hc]
  rcases ht with ht | ht
  · simp [ht, hT, AuthTypeNone, AuthTypeBearer]
  · simp [ht, hT, AuthTypeNone, AuthTypeBearer, AuthTypeAPIKey, AuthTypeBasic, AuthTypeOAuth2]

theorem canonical_authorization : CanonicalMIMEHeaderKey "Authorization" = "Authorization" := by
  decide

theorem canonical_cookie : CanonicalMIMEHeaderKey "Cookie" = "Cookie" := by
  decide

/-- C4.  `ApplyAuth` with an active bearer or oauth2 configuration whose token is
not empty returns no error and leaves the request with the header `Authorization`
equal to "Bearer " followed by the token; every other header, the URL with its
query, the method, the cookies and the body are unchanged; a bearer and an oauth2
configuration with the same token leave the same request. -/
theorem C4_bearer_sets_authorization (am : AuthManager) (c : AuthConfig) (req : HttpRequest)
    (hc : am.config = some c) (ht : c.Typ = AuthTypeBearer ∨ c.Typ = AuthTypeOAuth2)
    (hT : c.Token ≠ "") :
    (am.ApplyAuth req).2 = none ∧
    Header.Get (am.ApplyAuth req).1.Header "Authorization" = "Bearer " ++ c.Token ∧
    (am.ApplyAuth req).1.Header.get "Authorization" = some ["Bearer " ++ c.Token] ∧
    (∀ k, k ≠ "Authorization" → (am.ApplyAuth req).1.Header.get k = req.Header.get k) ∧
    (am.ApplyAuth req).1.URL = req.URL ∧
    (am.ApplyAuth req).1.Query = req.Query ∧
    (am.ApplyAuth req).1.Method = req.Method ∧
    (am.ApplyAuth req).1.Cookies = req.Cookies ∧
    (am.ApplyAuth req).1.Body = req.Body ∧
    (∀ (am' : AuthManager) (c' : AuthConfig), am'.config = some c' →
      (c'.Typ = AuthTypeBearer ∨ c'.Typ = AuthTypeOAuth2) → c'.Token = c.Token →
      am'.ApplyAuth req = am.ApplyAuth req) := by
  rw [applyAuth_bearer_eq am c req hc ht hT]
  refine ⟨rfl, ?_, ?_, ?_, rfl, rfl, rfl, ?_, rfl, ?_⟩
  · simp [HttpRequest.setHeader, Header.Get, Header.Set, GoMap.get_set_self]
  · simp [HttpRequest.setHeader, Header.Set, canonical_authorization, GoMap.get_set_self]
  · intro k hk
    simp only [HttpRequest.setHeader, Header.Set, canonical_authorization]
    exact GoMap.get_set_ne _ _ _ _ hk
  · simp only [HttpRequest.Cookies, Header.Get, HttpRequest.setHeader, Header.Set,
      canonical_authorization, canonical_cookie]
    rw [GoMap.get_set_ne _ _ _ _ (by decide)]
  · intro am' c' hc' ht' hT'
    rw [applyAuth_bearer_eq am' c' req hc' ht' (hT' ▸ hT), hT']

/-- C4, witness: the token "abc" on a request with no Authorization header. -/
theorem C4_bearer_abc :
    Header.Get plainRequest.Header "Authorization" = "" ∧
    ((managerWith (bearerConfig "abc")).ApplyAuth plainRequest).2 = none ∧
    Header.Get ((managerWith (bearerConfig "abc")).ApplyAuth plainRequest).1.Header
      "Authorization" = "Bearer abc" :=
  ⟨by decide,
   (C4_bearer_sets_authorization (managerWith (bearerConfig "abc")) (bearerConfig "abc")
      plainRequest rfl (Or.inl rfl) (by decide)).1,
   (C4_bearer_sets_authorization (managerWith (bearerConfig "abc")) (bearerConfig "abc")
      plainRequest rfl (Or.inl rfl) (by decide)).2.1⟩

theorem applyAuth_error_iff (am : AuthManager) (req : HttpRequest) :
    (am.ApplyAuth req).2 ≠ none ↔ ∃ c, am.config = some c ∧ MissingCredential c := by
  unfold AuthManager.ApplyAuth MissingCredential
  cases hcfg : am.config with
  | none => simp
  | some c =>
    simp only [Option.some.injEq, exists_eq_left']
    by_cases h1 : c.Typ = AuthTypeNone
    · simp [h1, AuthTypeNone, AuthTypeBearer, AuthTypeAPIKey, AuthTypeBasic, AuthTypeOAuth2]
    by_cases h2 : c.Typ = AuthTypeBearer
    · by_cases ht : c.Token = "" <;>
        simp [h2, ht, AuthTypeNone, AuthTypeBearer, AuthTypeAPIKey, AuthTypeBasic,
          AuthTypeOAuth2]
    by_cases h3 : c.Typ = AuthTypeAPIKey
    · by_cases hk : c.APIKey = ""
      · simp [h3, hk, AuthTypeNone, AuthTypeBearer, AuthTypeAPIKey, AuthTypeBasic,
          AuthTypeOAuth2]
      · by_cases i1 : c.APIKeyIn = "header"
        · simp [h3, hk, i1, AuthTypeNone, AuthTypeBearer, AuthTypeAPIKey, AuthTypeBasic,
            AuthTypeOAuth2]
        by_cases i2 : c.APIKeyIn = "query"
        · simp [h3, hk, i2, AuthTypeNone, AuthTypeBearer, AuthTypeAPIKey, AuthTypeBasic,
            AuthTypeOAuth2]
        by_cases i3 : c.APIKeyIn = "cookie" <;>
          simp [h3, hk, i1, i2, i3, AuthTypeNone, AuthTypeBearer, AuthTypeAPIKey,
            AuthTypeBasic, AuthTypeOAuth2]
    by_cases h4 : c.Typ = AuthTypeBasic
    · by_cases hu : c.Username = "" <;> by_cases hp : c.Password = "" <;>
        simp [h4, hu, hp, AuthTypeNone, AuthTypeBearer, AuthTypeAPIKey, AuthTypeBasic,
          AuthTypeOAuth2]
    by_cases h5 : c.Typ = AuthTypeOAuth2
    · by_cases ht : c.Token = "" <;>
        simp [h5, ht, AuthTypeNone, AuthTypeBearer, AuthTypeAPIKey, AuthTypeBasic,
          AuthTypeOAuth2]
    simp [h1, h2, h3, h4, h5]

theorem applyAuth_error_keeps (am : AuthManager) (req : HttpRequest)
    (h : (am.ApplyAuth req).2 ≠ none) : (am.ApplyAuth req).1 = req := by
  revert h
  unfold AuthManager.ApplyAuth
  cases am.config with
  | none => simp
  | some c =>
    simp only
    repeat' split
    all_goals simp

theorem send_auth_error (newRequest : String → String → String → Except String HttpRequest)
    (doRequest : HttpRequest → Except String HttpResponse) (am : AuthManager)
    (baseURL : String) (seedQ seedH : Nat) (r : Request)
    (h : ∃ c, am.config = some c ∧ MissingCredential c) :
    (Client.Send newRequest doRequest (NewClient baseURL (some am)) seedQ seedH r).resp.Error
      ≠ none ∧
    (Client.Send newRequest doRequest (NewClient baseURL (some am)) seedQ seedH r).calls
      = [] := by
  unfold Client.Send NewClient
  simp only
  split
  · simp
  · split
    · simp
    · rename_i heq
      exact absurd heq ((applyAuth_error_iff am _).mpr h)

/-- C5.  `ApplyAuth` returns an error exactly when the required credential of the
active mode is empty (token for bearer and oauth2, key value for api-key, username
or password for basic); in mode none it returns none.  When it returns an error
the request is as before, and `Client.Send` returns a response whose `Error` is
set and hands no request to the network. -/
theorem C5_error_iff_missing_credential (am : AuthManager) (req : HttpRequest) :
    ((am.ApplyAuth req).2 ≠ none ↔ ∃ c, am.config = some c ∧ MissingCredential c) ∧
    (∀ c, am.config = some c → c.Typ = AuthTypeNone → (am.ApplyAuth req).2 = none) ∧
    ((am.ApplyAuth req).2 ≠ none →
      (am.ApplyAuth req).1 = req ∧
      ∀ (newRequest : String → String → String → Except String HttpRequest)
        (doRequest : HttpRequest → Except String HttpResponse)
        (baseURL : String) (seedQ seedH : Nat) (r : Request),
        (Client.Send newRequest doRequest (NewClient baseURL (some am)) seedQ seedH r).resp.Error
          ≠ none ∧
        (Client.Send newRequest doRequest (NewClient baseURL (some am)) seedQ seedH r).calls
          = []) := by
  refine ⟨applyAuth_error_iff am req, ?_, ?_⟩
  · intro c hc hn
    by_contra h
    obtain ⟨c', hc', hm⟩ := (applyAuth_error_iff am req).mp h
    rw [hc] at hc'
    cases hc'
    unfold MissingCredential at hm
    rw [hn] at hm
    simp [AuthTypeNone, AuthTypeBearer, AuthTypeAPIKey, AuthTypeBasic, AuthTypeOAuth2] at hm
  · intro h
    refine ⟨applyAuth_error_keeps am req h, ?_⟩
    intro newRequest doRequest baseURL seedQ seedH r
    exact send_auth_error newRequest doRequest am baseURL seedQ seedH r
      ((applyAuth_error_iff am req).mp h)

/-- C5, witness: a bearer configuration with an empty token. -/
theorem C5_empty_bearer_token :
    ((managerWith (bearerConfig "")).ApplyAuth plainRequest).2
      = some "bearer token is required" ∧
    ((managerWith (bearerConfig "")).ApplyAuth plainRequest).1 = plainRequest ∧
    (Client.Send simpleNewRequest okTransport
      (NewClient "http://localhost:3000" (some (managerWith (bearerConfig "")))) 0 0
      (buildRequest usersEndpoint [("id", fieldWith "42")] emptyBody)).calls = [] ∧
    (Client.Send simpleNewRequest okTransport
      (NewClient "http://localhost:3000" (some (managerWith (bearerConfig "")))) 0 0
      (buildRequest usersEndpoint [("id", fieldWith "42")] emptyBody)).resp.Error
      = some "auth error: bearer token is required" :=
  ⟨by decide,
   ((C5_error_iff_missing_credential (managerWith (bearerConfig "")) plainRequest).2.2
      (by decide)).1,
   (((C5_error_iff_missing_credential (managerWith (bearerConfig "")) plainRequest).2.2
      (by decide)).2 simpleNewRequest okTransport "http://localhost:3000" 0 0
      (buildRequest usersEndpoint [("id", fieldWith "42")] emptyBody)).2,
   by decide⟩

theorem applyAuth_apikey_eq (am : AuthManager) (c : AuthConfig) (req : HttpRequest)
    (hc : am.config = some c) (ht : c.Typ = AuthTypeAPIKey) (hv : c.APIKey ≠ "") :
    am.ApplyAuth req =
      if c.APIKeyIn = "header" then (req.setHeader c.KeyName c.APIKey, none)
      else if c.APIKeyIn = "query" then (req.setQuery c.KeyName c.APIKey, none)
      else if c.APIKeyIn = "cookie" then
        (req.AddCookie { Name := c.KeyName, Value := c.APIKey }, none)
      else (req, none) := by
  unfold AuthManager.ApplyAuth
  rw [hc]
  simp [ht, hv, AuthTypeNone, AuthTypeBearer, AuthTypeAPIKey]

theorem string_mk_data (s : String) : String.mk s.data = s := by
  cases s; rfl

theorem sanitizeCookieName_clean (n : String) (h : CleanCookieName n) :
    sanitizeCookieName n = n := by
  unfold sanitizeCookieName
  have hmap : n.data.map (fun c => if c.toNat = 10 ∨ c.toNat = 13 then '-' else c) = n.data := by
    conv_rhs => rw [← List.map_id n.data]
    apply List.map_congr_left
    intro c hc
    have := h c hc
    simp [this.1, this.2]
  rw [hmap, string_mk_data]

theorem sanitizeCookieValue_clean (v : String) (h : CleanCookieValue v) :
    sanitizeCookieValue v = v := by
  unfold sanitizeCookieValue
  have hfilter : v.data.filter validCookieValueByte = v.data :=
    List.filter_eq_self.mpr (fun c hc => (h c hc).1)
  have hany : v.data.any (fun c => c == ' ' || c == ',') = false := by
    rw [List.any_eq_false]
    intro c hc
    have := h c hc
    simp [this.2.1, this.2.2]
  simp only [hfilter, hany, Bool.false_eq_true, if_false, ite_self, string_mk_data]

/-- C6 (counterexample).  With the api-key configuration that sends the key as the
cookie `sid` and the key value "a;b", `ApplyAuth` returns no error and the request
carries the cookie `sid=ab`, not a cookie with the value "a;b": `AddCookie` drops
the semicolon. -/
theorem C6_cookie_value_is_sanitised :
    (cookieKeyConfig "a;b").APIKey ≠ "" ∧
    ((managerWith (cookieKeyConfig "a;b")).ApplyAuth plainRequest).2 = none ∧
    ((managerWith (cookieKeyConfig "a;b")).ApplyAuth plainRequest).1.Cookies = "sid=ab" ∧
    ((managerWith (cookieKeyConfig "a;b")).ApplyAuth plainRequest).1.Cookies ≠ "sid=a;b" := by
  decide

/-- C6 (amended).  `ApplyAuth` with an active api-key configuration whose key value
is not empty returns no error, and afterwards the request carries the key at the
injection point: the header of the key name equals the value when the point is
`header`; the query parameter of the key name equals the value when it is `query`;
when it is `cookie` the pair of the sanitised name and the sanitised value is
written to the cookie line, after "; " when the request already has cookies, and
this is the pair name=value itself when the name has no line break, the value is
made of valid cookie bytes without space and comma, and the request has no cookie
yet.  The configuration is the one `applyAuth` stores for a declared `apiKey`
scheme: its declared name and location, with the value of the `apikey` input. -/
theorem C6_api_key_injected (am : AuthManager) (c : AuthConfig) (req : HttpRequest)
    (hc : am.config = some c) (ht : c.Typ = AuthTypeAPIKey) (hv : c.APIKey ≠ "") :
    (am.ApplyAuth req).2 = none ∧
    (c.APIKeyIn = "header" → Header.Get (am.ApplyAuth req).1.Header c.KeyName = c.APIKey) ∧
    (c.APIKeyIn = "query" → Values.Get (am.ApplyAuth req).1.Query c.KeyName = c.APIKey) ∧
    (c.APIKeyIn = "cookie" →
      (am.ApplyAuth req).1.Cookies =
        (if req.Cookies ≠ "" then
          req.Cookies ++ "; " ++
            (sanitizeCookieName c.KeyName ++ "=" ++ sanitizeCookieValue c.APIKey)
         else sanitizeCookieName c.KeyName ++ "=" ++ sanitizeCookieValue c.APIKey) ∧
      (CleanCookieName c.KeyName → CleanCookieValue c.APIKey → req.Cookies = "" →
        (am.ApplyAuth req).1.Cookies = c.KeyName ++ "=" ++ c.APIKey)) ∧
    (∀ (m : Model) (schemeName : String) (schemes : GoMap SecurityScheme)
       (scheme : SecurityScheme) (input : InputField),
       indexSlice m.authSchemes m.selectedScheme = .ok schemeName → schemeName ≠ "none" →
       m.authMgr.spec.SecuritySchemes = some schemes →
       schemes.get schemeName = some scheme → scheme.Typ = "apiKey" →
       m.authInputs.get "apikey" = some input →
       ∃ m', m.applyAuth = .ok m' ∧
         m'.authMgr.config = some
           { AuthConfig.zero with
             Typ := AuthTypeAPIKey, KeyName := scheme.Name, APIKeyIn := scheme.In,
             APIKey := input.Value }) := by
  rw [applyAuth_apikey_eq am c req hc ht hv]
  refine ⟨?_, ?_, ?_, ?_, ?_⟩
  · repeat' split
    all_goals rfl
  · intro h
    simp [h, HttpRequest.setHeader, Header.Get, Header.Set, GoMap.get_set_self]
  · intro h
    have h' : c.APIKeyIn ≠ "header" := by rw [h]; decide
    simp [h, HttpRequest.setQuery, Values.Get, Values.Set, GoMap.get_set_self]
  · intro h
    have hcookie : (req.AddCookie { Name := c.KeyName, Value := c.APIKey }).Cookies =
        (if req.Cookies ≠ "" then
          req.Cookies ++ "; " ++
            (sanitizeCookieName c.KeyName ++ "=" ++ sanitizeCookieValue c.APIKey)
         else sanitizeCookieName c.KeyName ++ "=" ++ sanitizeCookieValue c.APIKey) := by
      unfold HttpRequest.AddCookie HttpRequest.Cookies
      simp only
      split <;>
        simp [HttpRequest.setHeader, Header.Get, Header.Set, GoMap.get_set_self]
    simp only [h, if_true, (by decide : ¬ ("cookie" = "header")),
      (by decide : ¬ ("cookie" = "query")), if_false]
    refine ⟨hcookie, ?_⟩
    intro hn hval hempty
    rw [hcookie, hempty, sanitizeCookieName_clean _ hn, sanitizeCookieValue_clean _ hval]
    simp
  · intro m schemeName schemes scheme input hidx hne hs hg hty hin
    have hparse : m.authMgr.ParseAuthScheme schemeName = .ok
        { AuthConfig.zero with
          Typ := AuthTypeAPIKey, KeyName := scheme.Name, APIKeyIn := scheme.In } := by
      simp [AuthManager.ParseAuthScheme, hne, hs, hg, hty]
    have hfill : Model.fillCredentials
        { AuthConfig.zero with
          Typ := AuthTypeAPIKey, KeyName := scheme.Name, APIKeyIn := scheme.In }
        m.authInputs =
        { AuthConfig.zero with
          Typ := AuthTypeAPIKey, KeyName := scheme.Name, APIKeyIn := scheme.In,
          APIKey := input.Value } := by
      simp [Model.fillCredentials, hin, AuthTypeAPIKey, AuthTypeBearer, AuthTypeOAuth2]
    refine ⟨{ m with authMgr := m.authMgr.SetAuth (Model.fillCredentials
        { AuthConfig.zero with
          Typ := AuthTypeAPIKey, KeyName := scheme.Name, APIKeyIn := scheme.In }
        m.authInputs) }, ?_, ?_⟩
    · simp only [Model.applyAuth, hidx, bind, Except.bind, hne, if_false, hparse]
    · simp only [AuthManager.SetAuth, hfill]

/-- C6, witness: the scheme `ApiKeyAuth` (in the header `X-API-Key`), selected in
the auth view with the value "secret" typed and submitted, puts the header
`X-API-Key: secret` on the outgoing request. -/
theorem C6_api_key_secret :
    run (start demoModel) apiKeyEvents = .ok (afterEvents demoModel apiKeyEvents) ∧
    (afterEvents demoModel apiKeyEvents).model.authMgr.config = some
      { AuthConfig.zero with
        Typ := AuthTypeAPIKey, APIKey := "secret", APIKeyIn := "header",
        KeyName := "X-API-Key" } ∧
    Header.Get ((afterEvents demoModel apiKeyEvents).model.authMgr.ApplyAuth
      plainRequest).1.Header "X-API-Key" = "secret" :=
  ⟨by decide, by decide,
   (C6_api_key_injected (afterEvents demoModel apiKeyEvents).model.authMgr
      { AuthConfig.zero with
        Typ := AuthTypeAPIKey, APIKey := "secret", APIKeyIn := "header",
        KeyName := "X-API-Key" }
      plainRequest (by decide) rfl (by decide)).2.1 rfl⟩

/-- C7 (counterexample).  In the auth view with the bearer scheme `Tok` selected
and its token field empty, ctrl+s is not blocked: the manager held the
configuration `none` before and holds a bearer configuration with an empty token
afterwards. -/
theorem C7_empty_token_replaces_config :
    run (start demoModel) (emptyTokenEvents ++ [press "ctrl+s"])
      = .ok (afterEvents demoModel (emptyTokenEvents ++ [press "ctrl+s"])) ∧
    (afterEvents demoModel emptyTokenEvents).model.mode = .viewAuth ∧
    ((afterEvents demoModel emptyTokenEvents).model.authInputs.get "token").map
      (fun f => f.Value) = some "" ∧
    (afterEvents demoModel emptyTokenEvents).model.authMgr.config
      = some { AuthConfig.zero with Typ := AuthTypeNone } ∧
    (afterEvents demoModel (emptyTokenEvents ++ [press "ctrl+s"])).model.authMgr.config
      = some (bearerConfig "") ∧
    (afterEvents demoModel (emptyTokenEvents ++ [press "ctrl+s"])).model.authMgr.config
      ≠ (afterEvents demoModel emptyTokenEvents).model.authMgr.config := by
  decide

/-- C7 (amended).  In the auth view, ctrl+s on a scheme other than `none` is not
blocked by an empty credential.  If `ParseAuthScheme` accepts the selected scheme,
the manager afterwards holds the parsed configuration with the values of the auth
inputs copied in, empty or not (token for bearer and oauth2, key value for api-key,
username and password for basic), and the mode is List.  The configuration held
before stays only if `ParseAuthScheme` rejects the scheme. -/
theorem C7_submit_stores_entered_credentials (m : Model) (s1 s2 : Nat)
    (schemeName : String) (hmode : m.mode = .viewAuth)
    (hidx : indexSlice m.authSchemes m.selectedScheme = .ok schemeName)
    (hne : schemeName ≠ "none") :
    (∀ config, m.authMgr.ParseAuthScheme schemeName = .ok config →
      m.handleKeyPress "ctrl+s" s1 s2 = .ok
        ({ m with
           authMgr := m.authMgr.SetAuth (Model.fillCredentials config m.authInputs),
           mode := .viewList }, .none) ∧
      (config.Typ = AuthTypeBearer ∨ config.Typ = AuthTypeOAuth2 →
        ∀ input, m.authInputs.get "token" = some input →
          Model.fillCredentials config m.authInputs = { config with Token := input.Value }) ∧
      (config.Typ = AuthTypeAPIKey →
        ∀ input, m.authInputs.get "apikey" = some input →
          Model.fillCredentials config m.authInputs = { config with APIKey := input.Value }) ∧
      (config.Typ = AuthTypeBasic →
        ∀ user pass, m.authInputs.get "username" = some user →
          m.authInputs.get "password" = some pass →
          Model.fillCredentials config m.authInputs =
            { config with Username := user.Value, Password := pass.Value })) ∧
    (∀ err, m.authMgr.ParseAuthScheme schemeName = .error err →
      m.handleKeyPress "ctrl+s" s1 s2 = .ok ({ m with mode := .viewList }, .none)) := by
  constructor
  · intro config hparse
    refine ⟨?_, ?_, ?_, ?_⟩
    · simp only [Model.handleKeyPress, hmode, Model.applyAuth, hidx, bind, Except.bind, hne,
        if_false, hparse]
      simp
    · intro ht input hin
      simp only [Model.fillCredentials, ht, if_true, hin]
    · intro ht input hin
      simp [Model.fillCredentials, ht, hin, AuthTypeAPIKey, AuthTypeBearer, AuthTypeOAuth2]
    · intro ht user pass hu hp
      simp [Model.fillCredentials, ht, hu, hp, AuthTypeAPIKey, AuthTypeBearer, AuthTypeOAuth2,
        AuthTypeBasic]
  · intro err hparse
    simp only [Model.handleKeyPress, hmode, Model.applyAuth, hidx, bind, Except.bind, hne,
      if_false, hparse]
    simp

/-- C7 (amended), witness: the bearer scheme `Tok` with an empty token field. -/
theorem C7_submit_empty_token :
    (afterEvents demoModel emptyTokenEvents).model.handleKeyPress "ctrl+s" 0 0 = .ok
      ({ (afterEvents demoModel emptyTokenEvents).model with
         authMgr := (afterEvents demoModel emptyTokenEvents).model.authMgr.SetAuth
           (Model.fillCredentials (bearerConfig "")
             (afterEvents demoModel emptyTokenEvents).model.authInputs),
         mode := .viewList }, .none) :=
  ((C7_submit_stores_entered_credentials (afterEvents demoModel emptyTokenEvents).model 0 0
      "Tok" (by decide) (by decide) (by decide)).1 (bearerConfig "") (by decide)).1

/-- C8 (the code at the failing input).  Whatever the specification, the
endpoints and the settings the program is started with, the key `s` (open the auth
view) followed by `tab` or `shift+tab`, and the key `c` (open the settings view)
followed by `tab` or `shift+tab`, end in a nil dereference: `cycleFocus` reads
`m.selected.HasBody` while no endpoint is selected. -/
theorem C8_tab_outside_request_form_panics (spec : Spec) (endpoints : List Endpoint)
    (seed : Nat) (baseURL : String) (port : Int) (cb : Bool) (a b : Event) (reverse : Bool)
    (ha : a.msg = .KeyMsg "s" ∨ a.msg = .KeyMsg "c")
    (hb : b.msg = .KeyMsg (if reverse then "shift+tab" else "tab")) :
    run (start (NewModel spec endpoints seed baseURL port cb)) [a, b]
      = .error .nilDereference := by
  obtain ⟨schemes, title, version⟩ := spec
  obtain ⟨amsg, a1, a2, a3⟩ := a
  obtain ⟨bmsg, b1, b2, b3⟩ := b
  simp only at ha hb
  subst hb
  rcases ha with ha | ha <;> subst ha <;> cases reverse <;> cases schemes <;>
    simp [NewAuthManager, run, step, start, NewModel, Model.Update, Model.handleKeyPress, keyMatches, keys,
      Model.initAuthInputs, Model.initSettingsInputs, indexSlice,
      AuthManager.GetAvailableAuthSchemes, Model.cycleFocus, derefSelected, bind, Except.bind]

/-- C8, witness: `s` then `tab` on the demo model. -/
theorem C8_s_then_tab :
    (afterEvents demoModel [press "s"]).model.mode = .viewAuth ∧
    run (start demoModel) [press "s", press "tab"] = .error .nilDereference :=
  ⟨by decide,
   C8_tab_outside_request_form_panics demoSpec [itemEndpoint, pingEndpoint] 0
     "http://localhost:3000" 8080 true (press "s") (press "tab") false (Or.inl rfl) rfl⟩

/-- C9 (the code at the failing input).  The endpoint `twoIdEndpoint` declares two
parameters (both named `id`, in the path and in the query) and no body, yet the
request form opened for it holds one field, and the ring of `cycleFocus` has size
one.  For `abEndpoint`, whose parameters are `a` then `b`, a visiting order of the
field map focuses `b` as the first field of the ring. -/
theorem C9_one_field_for_two_parameters :
    twoIdEndpoint.Parameters.length = 2 ∧ twoIdEndpoint.HasBody = false ∧
    run (start (NewModel demoSpec [twoIdEndpoint] 0 "" 8080 true))
        [press "enter", press "enter"]
      = .ok (afterEvents (NewModel demoSpec [twoIdEndpoint] 0 "" 8080 true)
          [press "enter", press "enter"]) ∧
    (afterEvents (NewModel demoSpec [twoIdEndpoint] 0 "" 8080 true)
      [press "enter", press "enter"]).model.mode = .viewRequest ∧
    (afterEvents (NewModel demoSpec [twoIdEndpoint] 0 "" 8080 true)
      [press "enter", press "enter"]).model.paramInputs.map (fun e => (e.1, e.2.Label))
      = [("id", "id (query)")] ∧
    requestFieldCount (afterEvents (NewModel demoSpec [twoIdEndpoint] 0 "" 8080 true)
      [press "enter", press "enter"]).model = 1 ∧
    (afterEvents (NewModel demoSpec [abEndpoint] 0 "" 8080 true)
      [press "enter", { msg := .KeyMsg "enter", s1 := 1, s2 := 0, s3 := 0 }]).model.focusedInput
      = 0 ∧
    (afterEvents (NewModel demoSpec [abEndpoint] 0 "" 8080 true)
      [press "enter", { msg := .KeyMsg "enter", s1 := 1, s2 := 0, s3 := 0 }]).model.paramInputs.map
        (fun e => (e.1, e.2.Focused))
      = [("a", false), ("b", true)] := by
  decide

/-- C10 (the code at the failing input).  The user opens the request form of
`itemEndpoint` (one parameter and a body), moves the focus to the body field
(index 1), sends, goes back to the list and selects `pingEndpoint` (no parameter,
no body); the response arrives and the user leaves the response view.  The state
is reachable, its mode is RequestForm, its form has one field, and its focus index
is 1: the invariant fails. -/
theorem C10_focus_index_outside_form :
    Reachable (afterEvents demoModel lateResponseEvents) ∧
    (afterEvents demoModel lateResponseEvents).model.mode = .viewRequest ∧
    (afterEvents demoModel lateResponseEvents).model.selected = some pingEndpoint ∧
    (afterEvents demoModel lateResponseEvents).model.paramInputs.length = 1 ∧
    activeFieldCount (afterEvents demoModel lateResponseEvents).model = some 1 ∧
    (afterEvents demoModel lateResponseEvents).model.focusedInput = 1 ∧
    ¬ FocusInvariant (afterEvents demoModel lateResponseEvents).model := by
  refine ⟨⟨demoSpec, [itemEndpoint, pingEndpoint], 0, "http://localhost:3000", 8080, true,
    lateResponseEvents, by decide⟩, ?_⟩
  decide

theorem exists_getElem?_of_mem {α : Type} :
    ∀ (l : List α) (x : α), x ∈ l → ∃ i, i < l.length ∧ l[i]? = some x
  | [], _, h => by simp at h
  | a :: t, x, h => by
    rcases List.mem_cons.mp h with h | h
    · exact ⟨0, by simp, by simp [h]⟩
    · obtain ⟨i, hi, hx⟩ := exists_getElem?_of_mem t x h
      exact ⟨i + 1, by simp [hi], by simpa using hx⟩

/-- Every visiting order is the order selected by some seed. -/
theorem permuteAux_surjective {α : Type} :
    ∀ (p l : List α), p.Perm l → ∃ seed, GoMap.permuteAux l.length seed l = p
  | [], l, h => by
    have : l = [] := List.Perm.nil_eq h ▸ rfl
    subst this
    exact ⟨0, rfl⟩
  | x :: p, l, h => by
    have hx : x ∈ l := h.subset (List.mem_cons_self x p)
    obtain ⟨i, hi, hget⟩ := exists_getElem?_of_mem l x hx
    have hperm : p.Perm (l.eraseIdx i) :=
      List.Perm.cons_inv (h.trans (GoMap.cons_eraseIdx_perm l i x hget).symm)
    obtain ⟨seed, hseed⟩ := permuteAux_surjective p (l.eraseIdx i) hperm
    have hlen : l.length = (l.eraseIdx i).length + 1 := by
      have := List.length_eraseIdx_of_lt hi
      omega
    refine ⟨i + l.length * seed, ?_⟩
    have hmod : (i + l.length * seed) % l.length = i := by
      rw [Nat.add_mul_mod_self_left]; exact Nat.mod_eq_of_lt hi
    have hdiv : (i + l.length * seed) / l.length = seed := by
      rw [Nat.add_mul_div_left _ _ (by omega), Nat.div_eq_of_lt hi, Nat.zero_add]
    have key : GoMap.permuteAux ((l.eraseIdx i).length + 1) (i + l.length * seed) l
        = x :: p := by
      rw [GoMap.permuteAux]
      rw [← hlen, hmod, hdiv, hget]
      simp only
      rw [hseed]
    rw [hlen] at *
    exact key

theorem range_surjective {V : Type} (m : GoMap V) (visited : List (String × V))
    (h : visited.Perm m) : ∃ seed, m.range seed = visited :=
  permuteAux_surjective visited m h

theorem set_keys_of_not_mem {V : Type} (m : GoMap V) (k : String) (v : V)
    (h : k ∉ GoMap.keys m) : GoMap.keys (GoMap.set m k v) = GoMap.keys m ++ [k] := by
  induction m with
  | nil => rfl
  | cons e t ih =>
    obtain ⟨a, b⟩ := e
    simp only [GoMap.keys, List.map_cons, List.mem_cons, not_or] at h
    have hne : ¬ a = k := fun h' => h.1 h'.symm
    simp only [GoMap.set, hne, if_false, GoMap.keys, List.map_cons, List.cons_append]
    congr 1
    exact ih h.2

theorem foldl_set_keys (F : Parameter → InputField) :
    ∀ (ps : List Parameter) (acc : GoMap InputField),
      (GoMap.keys acc ++ ps.map (fun p => p.Name)).Nodup →
      GoMap.keys (ps.foldl (fun acc p => GoMap.set acc p.Name (F p)) acc)
        = GoMap.keys acc ++ ps.map (fun p => p.Name)
  | [], acc, _ => by simp
  | p :: ps, acc, h => by
    have hnot : p.Name ∉ GoMap.keys acc := by
      intro hmem
      have := List.nodup_append.mp h
      exact this.2.2 hmem (by simp)
    rw [List.foldl_cons, foldl_set_keys F ps _ (by
      rw [set_keys_of_not_mem _ _ _ hnot]; simpa using h)]
    rw [set_keys_of_not_mem _ _ _ hnot]
    simp

theorem adjust_keys {V : Type} (m : GoMap V) (k : String) (f : V → V) :
    GoMap.keys (GoMap.adjust m k f) = GoMap.keys m := by
  unfold GoMap.adjust GoMap.keys
  rw [List.map_map]
  apply List.map_congr_left
  intro e _
  by_cases h : e.1 = k <;> simp [h]

theorem atVisited_keys (m : GoMap InputField) (seed : Nat) (i : Int)
    (f : InputField → InputField) : GoMap.keys (atVisited m seed i f) = GoMap.keys m := by
  unfold atVisited
  split
  · rfl
  · split
    · exact adjust_keys _ _ _
    · rfl

/-- Opening the request form for an endpoint whose parameter names are pairwise
distinct: one field per parameter, keyed by the parameter names, and a ring of
size k + [b] with the focus index at 0. -/
theorem initRequestInputs_fields (m : Model) (sel : Endpoint) (seed : Nat)
    (hsel : m.selected = some sel)
    (hnd : (sel.Parameters.map (fun p => p.Name)).Nodup) :
    ∃ m', m.initRequestInputs seed = .ok m' ∧
      GoMap.keys m'.paramInputs = sel.Parameters.map (fun p => p.Name) ∧
      m'.paramInputs.length = sel.Parameters.length ∧
      requestFieldCount m' = (sel.Parameters.length : Int) + (if sel.HasBody then 1 else 0) ∧
      m'.focusedInput = 0 ∧ m'.selected = some sel := by
  have hkeys := foldl_set_keys
    (fun param =>
      NewInputField (param.Name ++ " (" ++ param.In ++ ")") param.Example param.Required)
    sel.Parameters [] (by simpa [GoMap.keys] using hnd)
  simp only [GoMap.keys, List.map_nil, List.nil_append] at hkeys
  have hlen := congrArg List.length hkeys
  simp only [List.length_map] at hlen
  simp only [Model.initRequestInputs, derefSelected, hsel, bind, Except.bind]
  split
  · refine ⟨_, rfl, ?_, ?_, ?_, rfl, rfl⟩
    · simp only [atVisited_keys]; exact hkeys
    · have := congrArg List.length (atVisited_keys
        (sel.Parameters.foldl (fun acc param => GoMap.set acc param.Name
          (NewInputField (param.Name ++ " (" ++ param.In ++ ")") param.Example
            param.Required)) []) seed 0 InputField.Focus)
      simp only [GoMap.keys, List.length_map] at this
      simp only [this, hlen]
    · have := congrArg List.length (atVisited_keys
        (sel.Parameters.foldl (fun acc param => GoMap.set acc param.Name
          (NewInputField (param.Name ++ " (" ++ param.In ++ ")") param.Example
            param.Required)) []) seed 0 InputField.Focus)
      simp only [GoMap.keys, List.length_map] at this
      simp [requestFieldCount, this, hlen]
  · split
    · refine ⟨_, rfl, hkeys, hlen, ?_, rfl, rfl⟩
      simp [requestFieldCount, hlen, *]
    · refine ⟨_, rfl, hkeys, hlen, ?_, rfl, rfl⟩
      simp [requestFieldCount, hlen, *]

theorem lookup_eq_some_iff_mem {V : Type} :
    ∀ (l : List (String × V)), (l.map Prod.fst).Nodup →
      ∀ (k : String) (v : V), List.lookup k l = some v ↔ (k, v) ∈ l
  | [], _, k, v => by simp
  | (a, b) :: t, h, k, v => by
    simp only [List.map_cons, List.nodup_cons] at h
    by_cases hk : k = a
    · subst hk
      simp only [List.lookup, beq_self_eq_true, Option.some.injEq, List.mem_cons,
        Prod.mk.injEq, true_and]
      constructor
      · intro hb; exact Or.inl hb.symm
      · rintro (hb | hmem)
        · exact hb.symm
        · exact absurd (List.mem_map_of_mem Prod.fst hmem) h.1
    · have h' : (k == a) = false := by simpa using hk
      simp only [List.lookup, h', List.mem_cons, Prod.mk.injEq, hk, false_and, false_or]
      exact lookup_eq_some_iff_mem t h.2 k v

theorem lookup_perm {V : Type} (l₁ l₂ : List (String × V)) (hp : l₁.Perm l₂)
    (hnd : (l₁.map Prod.fst).Nodup) (k : String) : List.lookup k l₁ = List.lookup k l₂ := by
  have hnd₂ : (l₂.map Prod.fst).Nodup := (hp.map Prod.fst).nodup_iff.mp hnd
  apply Option.ext
  intro v
  simp only [Option.mem_def]
  rw [lookup_eq_some_iff_mem l₁ hnd, lookup_eq_some_iff_mem l₂ hnd₂]
  exact hp.mem_iff

theorem foldl_visit_rest (sel : Endpoint) :
    ∀ (visited : List (String × InputField)) (req : Request),
      (visited.foldl (visitParam sel) req).Method = req.Method ∧
      (visited.foldl (visitParam sel) req).Body = req.Body ∧
      (visited.foldl (visitParam sel) req).ContentType = req.ContentType
  | [], req => ⟨rfl, rfl, rfl⟩
  | e :: t, req => by
    rw [List.foldl_cons]
    have ih := foldl_visit_rest sel t (visitParam sel req e)
    have hstep : (visitParam sel req e).Method = req.Method ∧
        (visitParam sel req e).Body = req.Body ∧
        (visitParam sel req e).ContentType = req.ContentType := by
      unfold visitParam applyParam
      repeat' split
      all_goals exact ⟨rfl, rfl, rfl⟩
    exact ⟨ih.1.trans hstep.1, ih.2.1.trans hstep.2.1, ih.2.2.trans hstep.2.2⟩

/-- Two visiting orders of the same field map assemble the same query map, header
map, method, body and content type; only the path can differ. -/
theorem buildRequest_order_independent_maps (sel : Endpoint)
    (v₁ v₂ : List (String × InputField)) (body : TextArea) (hp : v₁.Perm v₂)
    (hnd : (v₁.map Prod.fst).Nodup) :
    (∀ k, (buildRequest sel v₁ body).QueryParams.get k
        = (buildRequest sel v₂ body).QueryParams.get k) ∧
    (∀ k, (buildRequest sel v₁ body).Headers.get k
        = (buildRequest sel v₂ body).Headers.get k) ∧
    (buildRequest sel v₁ body).Method = (buildRequest sel v₂ body).Method ∧
    (buildRequest sel v₁ body).Body = (buildRequest sel v₂ body).Body ∧
    (buildRequest sel v₁ body).ContentType = (buildRequest sel v₂ body).ContentType := by
  have hnd₂ : (v₂.map Prod.fst).Nodup := (hp.map Prod.fst).nodup_iff.mp hnd
  refine ⟨?_, ?_, ?_, ?_, ?_⟩
  · intro k
    apply Option.ext
    intro v
    simp only [Option.mem_def]
    rw [(buildRequest_maps sel v₁ body hnd k v).1, (buildRequest_maps sel v₂ body hnd₂ k v).1,
      lookup_perm v₁ v₂ hp hnd k]
  · intro k
    apply Option.ext
    intro v
    simp only [Option.mem_def]
    rw [(buildRequest_maps sel v₁ body hnd k v).2, (buildRequest_maps sel v₂ body hnd₂ k v).2,
      lookup_perm v₁ v₂ hp hnd k]
  · unfold buildRequest
    split <;> simp [(foldl_visit_rest sel _ _).1]
  · unfold buildRequest
    split <;> simp [(foldl_visit_rest sel _ _).2.1]
  · unfold buildRequest
    split <;> simp [(foldl_visit_rest sel _ _).2.2]

theorem atVisited_length (m : GoMap InputField) (seed : Nat) (i : Int)
    (f : InputField → InputField) : (atVisited m seed i f).length = m.length := by
  have := congrArg List.length (atVisited_keys m seed i f)
  simpa [GoMap.keys] using this

/-- The effect of one `cycleFocus` on a request form that has a field. -/
theorem cycleFocus_step (m : Model) (sel : Endpoint) (reverse : Bool) (s1 s2 : Nat)
    (hsel : m.selected = some sel) (hN : requestFieldCount m ≠ 0) :
    ∃ m', m.cycleFocus reverse s1 s2 = .ok m' ∧
      m'.focusedInput =
        (if reverse then
          (if m.focusedInput - 1 < 0 then requestFieldCount m - 1 else m.focusedInput - 1)
         else (if m.focusedInput + 1 ≥ requestFieldCount m then 0 else m.focusedInput + 1)) ∧
      m'.selected = some sel ∧ m'.paramInputs.length = m.paramInputs.length ∧
      m'.mode = m.mode ∧ requestFieldCount m' = requestFieldCount m := by
  have hcount : requestFieldCount m
      = (m.paramInputs.length : Int) + (if sel.HasBody then 1 else 0) := by
    simp [requestFieldCount, hsel]
  rw [hcount] at hN ⊢
  simp only [Model.cycleFocus, derefSelected, hsel, bind, Except.bind, if_neg hN]
  cases reverse <;> simp only [Bool.false_eq_true, if_false, if_true] <;>
    split_ifs <;>
    refine ⟨_, rfl, ?_, ?_, ?_, ?_, ?_⟩ <;>
    simp_all [requestFieldCount, atVisited_length]
theorem next_eq_emod (i n : Int) (h0 : 0 ≤ i) (hn : i < n) :
    (if i + 1 ≥ n then 0 else i + 1) = (i + 1) % n := by
  split_ifs with h
  · have : i + 1 = n := by omega
    rw [this, Int.emod_self]
  · rw [Int.emod_eq_of_lt (by omega) (by omega)]

theorem prev_eq_emod (i n : Int) (h0 : 0 ≤ i) (hn : i < n) :
    (if i - 1 < 0 then n - 1 else i - 1) = (i + n - 1) % n := by
  split_ifs with h
  · have : i = 0 := by omega
    subst this
    rw [Int.emod_eq_of_lt (by omega) (by omega)]
    omega
  · have : i + n - 1 = (i - 1) + n := by omega
    rw [this, Int.add_emod_self, Int.emod_eq_of_lt (by omega) (by omega)]

theorem cycleTimes_forward (sel : Endpoint) :
    ∀ (seeds : List (Nat × Nat)) (m : Model), m.selected = some sel →
      0 ≤ m.focusedInput → m.focusedInput < requestFieldCount m →
      ∃ m', cycleTimes false m seeds = .ok m' ∧
        m'.focusedInput = (m.focusedInput + (seeds.length : Int)) % requestFieldCount m ∧
        m'.selected = some sel ∧ requestFieldCount m' = requestFieldCount m
  | [], m, hsel, h0, hn => by
    refine ⟨m, rfl, ?_, hsel, rfl⟩
    simp [Int.emod_eq_of_lt h0 hn]
  | s :: rest, m, hsel, h0, hn => by
    obtain ⟨m₁, hstep, hfocus, hsel₁, -, -, hcount⟩ :=
      cycleFocus_step m sel false s.1 s.2 hsel (by omega)
    simp only [Bool.false_eq_true, if_false] at hfocus
    rw [next_eq_emod _ _ h0 hn] at hfocus
    have hpos : 0 < requestFieldCount m := by omega
    have h0₁ : 0 ≤ m₁.focusedInput := by rw [hfocus]; exact Int.emod_nonneg _ (by omega)
    have hn₁ : m₁.focusedInput < requestFieldCount m₁ := by
      rw [hfocus, hcount]; exact Int.emod_lt_of_pos _ hpos
    obtain ⟨m', hrun, hfocus', hsel', hcount'⟩ := cycleTimes_forward sel rest m₁ hsel₁ h0₁ hn₁
    refine ⟨m', ?_, ?_, hsel', hcount'.trans hcount⟩
    · simp only [cycleTimes, hstep, hrun]
    · rw [hfocus', hcount, hfocus, Int.emod_add_emod]
      congr 1
      simp only [List.length_cons]
      push_cast
      omega

/-- C11.  On a request form (an endpoint is selected) with N fields, N at least 1,
and the focus index i in [0, N): N applications of `cycleFocus` forward, whatever
the visiting orders of their loops, return and leave the focus index at i; and
`cycleFocus` backward after `cycleFocus` forward leaves it at i. -/
theorem C11_focus_cycling_is_a_ring (m : Model) (sel : Endpoint)
    (seeds : List (Nat × Nat)) (s1 s2 s3 s4 : Nat)
    (hsel : m.selected = some sel)
    (h0 : 0 ≤ m.focusedInput) (hn : m.focusedInput < requestFieldCount m)
    (hlen : (seeds.length : Int) = requestFieldCount m) :
    (∃ m', cycleTimes false m seeds = .ok m' ∧ m'.focusedInput = m.focusedInput) ∧
    (∃ m₁ m₂, m.cycleFocus false s1 s2 = .ok m₁ ∧ m₁.cycleFocus true s3 s4 = .ok m₂ ∧
      m₂.focusedInput = m.focusedInput) := by
  constructor
  · obtain ⟨m', hrun, hfocus, -, -⟩ := cycleTimes_forward sel seeds m hsel h0 hn
    refine ⟨m', hrun, ?_⟩
    rw [hfocus, hlen, Int.add_emod_self, Int.emod_eq_of_lt h0 hn]
  · obtain ⟨m₁, hstep, hfocus, hsel₁, -, -, hcount⟩ :=
      cycleFocus_step m sel false s1 s2 hsel (by omega)
    obtain ⟨m₂, hstep₂, hfocus₂, -, -, -, -⟩ :=
      cycleFocus_step m₁ sel true s3 s4 hsel₁ (by omega)
    refine ⟨m₁, m₂, hstep, hstep₂, ?_⟩
    simp only [Bool.false_eq_true, if_false] at hfocus
    simp only [if_true] at hfocus₂
    rw [hfocus₂, hcount, hfocus]
    split_ifs <;> omega

/-- C12.  On a request form (an endpoint is selected) with N fields and the focus
index i in [0, N), `cycleFocus` forward sets the focus index to (i + 1) mod N and
`cycleFocus` backward sets it to (i + N - 1) mod N, which is N - 1 when i is 0;
with N = 0 `cycleFocus` returns the model unchanged in both directions. -/
theorem C12_cycleFocus_modular_steps (m : Model) (sel : Endpoint) (s1 s2 : Nat)
    (hsel : m.selected = some sel) :
    (0 ≤ m.focusedInput → m.focusedInput < requestFieldCount m →
      (∃ m', m.cycleFocus false s1 s2 = .ok m' ∧
        m'.focusedInput = (m.focusedInput + 1) % requestFieldCount m) ∧
      (∃ m', m.cycleFocus true s1 s2 = .ok m' ∧
        m'.focusedInput = (m.focusedInput + requestFieldCount m - 1) % requestFieldCount m ∧
        (m.focusedInput = 0 → m'.focusedInput = requestFieldCount m - 1))) ∧
    (requestFieldCount m = 0 → ∀ reverse, m.cycleFocus reverse s1 s2 = .ok m) := by
  constructor
  · intro h0 hn
    constructor
    · obtain ⟨m', hstep, hfocus, -⟩ := cycleFocus_step m sel false s1 s2 hsel (by omega)
      refine ⟨m', hstep, ?_⟩
      simp only [Bool.false_eq_true, if_false] at hfocus
      rw [hfocus, next_eq_emod _ _ h0 hn]
    · obtain ⟨m', hstep, hfocus, -⟩ := cycleFocus_step m sel true s1 s2 hsel (by omega)
      simp only [if_true] at hfocus
      refine ⟨m', hstep, ?_, ?_⟩
      · rw [hfocus, prev_eq_emod _ _ h0 hn]
      · intro hz
        rw [hfocus, hz]
        simp
  · intro hzero reverse
    have hcount : (m.paramInputs.length : Int) + (if sel.HasBody then 1 else 0) = 0 := by
      simpa [requestFieldCount, hsel] using hzero
    simp only [Model.cycleFocus, derefSelected, hsel, bind, Except.bind, hcount, if_true]

/-- C11, witness: the form of `itemEndpoint` (one parameter and a body, N = 2)
with the focus index at 0. -/
theorem C11_item_form_ring :
    (afterEvents demoModel openFormEvents).model.focusedInput = 0 ∧
    requestFieldCount (afterEvents demoModel openFormEvents).model = 2 ∧
    (cycleTimes false (afterEvents demoModel openFormEvents).model
      [(0, 0), (1, 1)]).toOption.map (fun m => m.focusedInput) = some 0 := by
  obtain ⟨⟨m', hrun, hfocus⟩, -⟩ :=
    C11_focus_cycling_is_a_ring (afterEvents demoModel openFormEvents).model itemEndpoint
      [(0, 0), (1, 1)] 0 0 0 0 (by decide) (by decide) (by decide) (by decide)
  refine ⟨by decide, by decide, ?_⟩
  rw [hrun]
  exact congrArg some (hfocus.trans (by decide))

/-- C12, witness: the form of `itemEndpoint` (N = 2) with the focus index at 0:
forward gives 1, backward wraps to 1 = N - 1. -/
theorem C12_item_form_steps :
    (afterEvents demoModel openFormEvents).model.focusedInput = 0 ∧
    requestFieldCount (afterEvents demoModel openFormEvents).model = 2 ∧
    ((afterEvents demoModel openFormEvents).model.cycleFocus false 0 0).toOption.map
      (fun m => m.focusedInput) = some 1 ∧
    ((afterEvents demoModel openFormEvents).model.cycleFocus true 0 0).toOption.map
      (fun m => m.focusedInput) = some 1 := by
  obtain ⟨⟨m₁, h₁, f₁⟩, ⟨m₂, h₂, f₂, -⟩⟩ :=
    (C12_cycleFocus_modular_steps (afterEvents demoModel openFormEvents).model itemEndpoint
      0 0 (by decide)).1 (by decide) (by decide)
  refine ⟨by decide, by decide, ?_, ?_⟩
  · rw [h₁]
    exact congrArg some (f₁.trans (by decide))
  · rw [h₂]
    exact congrArg some (f₂.trans (by decide))

theorem updateCurrentView_cmd (m : Model) (msg : Msg) (seed : Nat) (r : Model × Cmd)
    (h : m.updateCurrentView msg seed = .ok r) : r.2 = .none := by
  unfold Model.updateCurrentView at h
  cases hmode : m.mode <;> simp only [hmode] at h
  · cases h; rfl
  · cases h; rfl
  · split at h
    · cases hsel : derefSelected m with
      | error p => simp [hsel, bind, Except.bind] at h
      | ok sel =>
        simp only [hsel, bind, Except.bind] at h
        split at h <;> (cases h; rfl)
    · cases h; rfl
  · cases h; rfl
  · cases h; rfl
  · cases h; rfl

/-- C13 (counterexample).  In the request form `q`, and in the auth view
`ctrl+c`, both bound to quit, do not make `Update` return the quit command: `q`
is typed into the focused field. -/
theorem C13_quit_keys_inside_forms :
    keyMatches "q" keys.Quit = true ∧ keyMatches "ctrl+c" keys.Quit = true ∧
    (afterEvents demoModel openFormEvents).model.mode = .viewRequest ∧
    ((afterEvents demoModel openFormEvents).model.Update (.KeyMsg "q") 0 0).toOption.map
      (fun r => r.2) = some Cmd.none ∧
    ((afterEvents demoModel openFormEvents).model.Update (.KeyMsg "q") 0 0).toOption.map
      (fun r => r.1.paramInputs.map (fun e => (e.1, e.2.Value))) = some [("id", "q")] ∧
    (afterEvents demoModel [press "s"]).model.mode = .viewAuth ∧
    ((afterEvents demoModel [press "s"]).model.Update (.KeyMsg "ctrl+c") 0 0).toOption.map
      (fun r => r.2) = some Cmd.none := by
  decide

/-- C13 (amended).  A key bound to quit (`q` or `ctrl+c`) makes `Update` return
the quit command, with the model unchanged, in the modes List, Detail and
ResponseView.  In the modes RequestForm, AuthConfig and SettingsConfig the key is
handed to the form (`updateCurrentView`) and `Update` never returns the quit
command. -/
theorem C13_quit_in_list_detail_response (m : Model) (key : String) (s1 s2 : Nat)
    (hkey : keyMatches key keys.Quit = true) :
    (m.mode = .viewList ∨ m.mode = .viewDetail ∨ m.mode = .viewResponse →
      m.Update (.KeyMsg key) s1 s2 = .ok (m, .Quit)) ∧
    (m.mode = .viewRequest ∨ m.mode = .viewAuth ∨ m.mode = .viewSettings →
      m.Update (.KeyMsg key) s1 s2 = m.updateCurrentView (.KeyMsg key) s1 ∧
      ∀ r, m.Update (.KeyMsg key) s1 s2 = .ok r → r.2 = .none) := by
  have hk : key = "q" ∨ key = "ctrl+c" := by
    simpa [keyMatches, keys] using hkey
  constructor
  · rintro (h | h | h) <;> rcases hk with hk | hk <;> subst hk <;>
      simp [Model.Update, Model.handleKeyPress, h, keyMatches, keys]
  · intro hmode
    have heq : m.Update (.KeyMsg key) s1 s2 = m.updateCurrentView (.KeyMsg key) s1 := by
      rcases hmode with h | h | h <;> rcases hk with hk | hk <;> subst hk <;>
        simp [Model.Update, Model.handleKeyPress, h]
    refine ⟨heq, ?_⟩
    intro r hr
    rw [heq] at hr
    exact updateCurrentView_cmd m _ _ r hr

/-- C13 (amended), witness: `q` in the list. -/
theorem C13_q_in_list :
    demoModel.mode = .viewList ∧ demoModel.Update (.KeyMsg "q") 0 0 = .ok (demoModel, .Quit) :=
  ⟨by decide,
   (C13_quit_in_list_detail_response demoModel "q" 0 0 (by decide)).1 (Or.inl (by decide))⟩

/-- What `ParseAuthScheme` returns for a name other than "none", case by case. -/
theorem parseAuthScheme_cases (am : AuthManager) (name : String) (hne : name ≠ "none") :
    (am.spec.SecuritySchemes = none →
      am.ParseAuthScheme name = .error "no security schemes defined") ∧
    (∀ schemes, am.spec.SecuritySchemes = some schemes → schemes.get name = none →
      am.ParseAuthScheme name = .error ("security scheme " ++ name ++ " not found")) ∧
    (∀ schemes scheme, am.spec.SecuritySchemes = some schemes →
      schemes.get name = some scheme →
      (scheme.Typ = "http" → scheme.Scheme = "bearer" →
        am.ParseAuthScheme name = .ok { AuthConfig.zero with Typ := AuthTypeBearer }) ∧
      (scheme.Typ = "http" → scheme.Scheme = "basic" →
        am.ParseAuthScheme name = .ok { AuthConfig.zero with Typ := AuthTypeBasic }) ∧
      (scheme.Typ = "http" → scheme.Scheme ≠ "bearer" → scheme.Scheme ≠ "basic" →
        am.ParseAuthScheme name = .ok AuthConfig.zero) ∧
      (scheme.Typ = "apiKey" →
        am.ParseAuthScheme name = .ok
          { AuthConfig.zero with
            Typ := AuthTypeAPIKey, KeyName := scheme.Name, APIKeyIn := scheme.In }) ∧
      (scheme.Typ = "oauth2" →
        am.ParseAuthScheme name = .ok { AuthConfig.zero with Typ := AuthTypeOAuth2 }) ∧
      (scheme.Typ ≠ "http" → scheme.Typ ≠ "apiKey" → scheme.Typ ≠ "oauth2" →
        am.ParseAuthScheme name = .error ("unsupported auth type: " ++ scheme.Typ))) := by
  refine ⟨?_, ?_, ?_⟩
  · intro h
    simp [AuthManager.ParseAuthScheme, hne, h]
  · intro schemes h hg
    simp [AuthManager.ParseAuthScheme, hne, h, hg]
  · intro schemes scheme h hg
    refine ⟨?_, ?_, ?_, ?_, ?_, ?_⟩
    · intro ht hs
      simp [AuthManager.ParseAuthScheme, hne, h, hg, ht, hs]
    · intro ht hs
      simp [AuthManager.ParseAuthScheme, hne, h, hg, ht, hs]
    · intro ht hs hs'
      simp [AuthManager.ParseAuthScheme, hne, h, hg, ht, hs, hs']
    · intro ht
      simp [AuthManager.ParseAuthScheme, hne, h, hg, ht]
    · intro ht
      simp [AuthManager.ParseAuthScheme, hne, h, hg, ht]
    · intro h1 h2 h3
      simp [AuthManager.ParseAuthScheme, hne, h, hg, h1, h2, h3]

/-- C14 (the code at the failing input).  For the declared scheme `Digest`, of
type `http` with the scheme `digest`, `ParseAuthScheme` returns no error: it
returns the zero configuration, whose mode is the empty string, none of bearer,
basic, api-key and oauth2. -/
theorem C14_http_digest_is_not_rejected :
    digestSpec.SecuritySchemes
      = some [("Digest", { Typ := "http", Scheme := "digest", Name := "", In := "" })] ∧
    (NewAuthManager digestSpec).ParseAuthScheme "Digest" = .ok AuthConfig.zero ∧
    AuthConfig.zero.Typ = "" ∧
    (NewAuthManager digestSpec).ParseAuthScheme "Missing"
      = .error "security scheme Missing not found" := by
  decide

/-- The sequence of `GetAvailableAuthSchemes`: "none", then the declared names,
each once, in the order the `range` loop visits the map. -/
theorem getAvailableAuthSchemes_perm (am : AuthManager) (seed : Nat) :
    (am.spec.SecuritySchemes = none → am.GetAvailableAuthSchemes seed = ["none"]) ∧
    (∀ schemes, am.spec.SecuritySchemes = some schemes →
      ∃ names, am.GetAvailableAuthSchemes seed = "none" :: names ∧
        names.Perm (GoMap.keys schemes)) := by
  constructor
  · intro h
    simp [AuthManager.GetAvailableAuthSchemes, h]
  · intro schemes h
    refine ⟨(GoMap.range schemes seed).map Prod.fst, ?_, ?_⟩
    · simp [AuthManager.GetAvailableAuthSchemes, h]
    · exact (GoMap.range_perm schemes seed).map Prod.fst

/-- C15 (the code at the failing input).  For the specification that declares
`ApiKeyAuth` and then `Tok`, two calls of `GetAvailableAuthSchemes` whose `range`
loops visit the scheme map in different orders return different sequences, one of
them not in declaration order. -/
theorem C15_scheme_order_varies :
    (demoSpec.SecuritySchemes.map GoMap.keys) = some ["ApiKeyAuth", "Tok"] ∧
    (NewAuthManager demoSpec).GetAvailableAuthSchemes 0 = ["none", "ApiKeyAuth", "Tok"] ∧
    (NewAuthManager demoSpec).GetAvailableAuthSchemes 1 = ["none", "Tok", "ApiKeyAuth"] := by
  decide

/-- Submitting the settings form with a non-empty base URL and a port field that
is empty or reads as the current port never invokes the callback. -/
theorem applySettings_base_url_only (m : Model) (urlInput portInput : InputField)
    (hurl : m.settingsInputs.get "baseURL" = some urlInput) (hv : urlInput.Value ≠ "")
    (hport : m.settingsInputs.get "port" = some portInput)
    (hp : portInput.Value = "" ∨ sscanInt portInput.Value = some m.port) :
    m.applySettings = .ok
      { m with baseURL := urlInput.Value, client := some (TrimSuffix urlInput.Value "/") } := by
  rcases hp with hp | hp
  · simp [Model.applySettings, hurl, hv, hport, hp]
  · by_cases he : portInput.Value = ""
    · simp [Model.applySettings, hurl, hv, hport, he]
    · simp [Model.applySettings, hurl, hv, hport, hp, he]

/-- C16 (the code at the failing input).  In the settings view the user appends
"x" to the base URL and submits, with the callback set: the mode is List, the
model holds the new base URL, and the callback has not been invoked. -/
theorem C16_base_url_change_not_notified :
    run (start demoModel) baseURLEvents = .ok (afterEvents demoModel baseURLEvents) ∧
    demoModel.onSettingsChange = true ∧
    demoModel.baseURL = "http://localhost:3000" ∧
    (afterEvents demoModel baseURLEvents).model.mode = .viewList ∧
    (afterEvents demoModel baseURLEvents).model.baseURL = "http://localhost:3000x" ∧
    (afterEvents demoModel baseURLEvents).model.port = 8080 ∧
    (afterEvents demoModel baseURLEvents).model.settingsCalls = [] := by
  decide

/-- C17 (the code at the failing input).  In the form of `itemEndpoint` the user
moves to the body field, types "x", cancels and confirms again: the reopened form
has the same parameter fields as the form opened for the first time, but its body
field holds "x" where the first form held the empty text. -/
theorem C17_body_text_survives_reopening :
    run (start demoModel) reopenEvents = .ok (afterEvents demoModel reopenEvents) ∧
    (afterEvents demoModel openFormEvents).model.mode = .viewRequest ∧
    (afterEvents demoModel reopenEvents).model.mode = .viewRequest ∧
    (afterEvents demoModel reopenEvents).model.selected = some itemEndpoint ∧
    (afterEvents demoModel reopenEvents).model.paramInputs
      = (afterEvents demoModel openFormEvents).model.paramInputs ∧
    (afterEvents demoModel openFormEvents).model.bodyInput.Value = "" ∧
    (afterEvents demoModel reopenEvents).model.bodyInput.Value = "x" := by
  decide

theorem set_mem {V : Type} (m : GoMap V) (k : String) (v : V) (e : String × V)
    (h : e ∈ GoMap.set m k v) : e ∈ m ∨ e = (k, v) := by
  induction m with
  | nil => simpa [GoMap.set] using h
  | cons a t ih =>
    obtain ⟨a1, a2⟩ := a
    by_cases hk : a1 = k
    · simp only [GoMap.set, hk, if_true, List.mem_cons] at h
      rcases h with h | h
      · exact Or.inr h
      · exact Or.inl (List.mem_cons_of_mem _ h)
    · simp only [GoMap.set, hk, if_false, List.mem_cons] at h
      rcases h with h | h
      · exact Or.inl (h ▸ List.mem_cons_self _ _)
      · rcases ih h with h' | h'
        · exact Or.inl (List.mem_cons_of_mem _ h')
        · exact Or.inr h'

theorem foldl_set_mem (F : Parameter → InputField) :
    ∀ (ps : List Parameter) (acc : GoMap InputField) (e : String × InputField),
      e ∈ ps.foldl (fun acc p => GoMap.set acc p.Name (F p)) acc →
      e ∈ acc ∨ ∃ p ∈ ps, e = (p.Name, F p)
  | [], acc, e, h => Or.inl h
  | p :: ps, acc, e, h => by
    rw [List.foldl_cons] at h
    rcases foldl_set_mem F ps _ e h with h' | ⟨q, hq, he⟩
    · rcases set_mem acc p.Name (F p) e h' with h'' | h''
      · exact Or.inl h''
      · exact Or.inr ⟨p, List.mem_cons_self _ _, h''⟩
    · exact Or.inr ⟨q, List.mem_cons_of_mem _ hq, he⟩

theorem atVisited_mem (m : GoMap InputField) (seed : Nat) (i : Int)
    (f : InputField → InputField) (e : String × InputField) (h : e ∈ atVisited m seed i f) :
    ∃ e' ∈ m, e.1 = e'.1 ∧ (e.2 = e'.2 ∨ e.2 = f e'.2) := by
  unfold atVisited at h
  split at h
  · exact ⟨e, h, rfl, Or.inl rfl⟩
  · split at h
    · simp only [GoMap.adjust, List.mem_map] at h
      obtain ⟨e', he', heq⟩ := h
      refine ⟨e', he', ?_⟩
      split at heq <;> subst heq <;> simp
    · exact ⟨e, h, rfl, Or.inl rfl⟩

theorem foldl_visit_empty (sel : Endpoint) :
    ∀ (visited : List (String × InputField)) (req : Request),
      (∀ e ∈ visited, e.2.Value = "") → visited.foldl (visitParam sel) req = req
  | [], _, _ => rfl
  | e :: t, req, h => by
    rw [List.foldl_cons]
    have he : visitParam sel req e = req := by
      simp [visitParam, h e (List.mem_cons_self _ _)]
    rw [he]
    exact foldl_visit_empty sel t req (fun e' he' => h e' (List.mem_cons_of_mem _ he'))

/-- The fields that `initRequestInputs` builds: every field is the fresh field of a
declared parameter, focused or not. -/
theorem initRequestInputs_entries (m : Model) (sel : Endpoint) (seed : Nat)
    (hsel : m.selected = some sel) :
    ∃ m', m.initRequestInputs seed = .ok m' ∧ m'.selected = some sel ∧
      ∀ e ∈ m'.paramInputs, ∃ p ∈ sel.Parameters, e.1 = p.Name ∧
        (e.2 = NewInputField (p.Name ++ " (" ++ p.In ++ ")") p.Example p.Required ∨
         e.2 = (NewInputField (p.Name ++ " (" ++ p.In ++ ")") p.Example p.Required).Focus) := by
  have hbase : ∀ e ∈ sel.Parameters.foldl
      (fun acc param => GoMap.set acc param.Name
        (NewInputField (param.Name ++ " (" ++ param.In ++ ")") param.Example param.Required))
      ([] : GoMap InputField),
      ∃ p ∈ sel.Parameters, e = (p.Name,
        NewInputField (p.Name ++ " (" ++ p.In ++ ")") p.Example p.Required) := by
    intro e he
    rcases foldl_set_mem _ sel.Parameters [] e he with h | h
    · simp at h
    · exact h
  simp only [Model.initRequestInputs, derefSelected, hsel, bind, Except.bind]
  split
  · refine ⟨_, rfl, rfl, ?_⟩
    intro e he
    replace he : e ∈ atVisited _ seed 0 InputField.Focus := he
    obtain ⟨e', he', h1, h2⟩ := atVisited_mem _ _ _ _ e he
    obtain ⟨p, hp, hep⟩ := hbase e' he'
    subst hep
    exact ⟨p, hp, h1, h2⟩
  · split
    · refine ⟨_, rfl, rfl, ?_⟩
      intro e he
      obtain ⟨p, hp, hep⟩ := hbase e he
      subst hep
      exact ⟨p, hp, rfl, Or.inl rfl⟩
    · refine ⟨_, rfl, rfl, ?_⟩
      intro e he
      obtain ⟨p, hp, hep⟩ := hbase e he
      subst hep
      exact ⟨p, hp, rfl, Or.inl rfl⟩

/-- C18 (counterexample).  The parameter `id` of `exampleEndpoint` has the example
"42" and the body has the example "[1, 2]".  After the form is opened the value of
the field `id` is empty (the example is its placeholder), the body field is empty,
and the request assembled at once carries neither: the placeholder is still in
the path and the body is empty. -/
theorem C18_examples_are_not_values :
    run (start exampleModel) openFormEvents = .ok (afterEvents exampleModel openFormEvents) ∧
    exampleEndpoint.Parameters.map (fun p => (p.Name, p.Example)) = [("id", "42")] ∧
    exampleEndpoint.RequestBody = "[1, 2]" ∧
    (afterEvents exampleModel openFormEvents).model.paramInputs.map
      (fun e => (e.1, e.2.Value, e.2.Placeholder)) = [("id", "", "42")] ∧
    (afterEvents exampleModel openFormEvents).model.bodyInput.Value = "" ∧
    ((afterEvents exampleModel openFormEvents).model.sendRequest 0).toOption.map
      (fun r => (r.Path, r.Body)) = some ("/users/{id}", "") := by
  decide

/-- C18 (amended).  Opening the request form for the selected endpoint leaves the
value of every parameter field empty.  When the parameter names are pairwise
distinct, the field of each parameter carries the example of the parameter as its
placeholder and its required flag.  A request assembled immediately after opening
carries no parameter value: its path is the path template and its query and header
maps are empty. -/
theorem C18_opening_shows_examples_as_placeholders (m : Model) (sel : Endpoint)
    (seed : Nat) (hsel : m.selected = some sel) :
    ∃ m', m.initRequestInputs seed = .ok m' ∧
      (∀ e ∈ m'.paramInputs, e.2.Value = "") ∧
      ((sel.Parameters.map (fun p => p.Name)).Nodup → ∀ p ∈ sel.Parameters,
        ∃ f, m'.paramInputs.get p.Name = some f ∧ f.Value = "" ∧
          f.Placeholder = p.Example ∧ f.Required = p.Required) ∧
      (∀ seed', ∃ req, m'.sendRequest seed' = .ok req ∧ req.Path = sel.Path ∧
        req.QueryParams = [] ∧ req.Headers = []) := by
  obtain ⟨m', hinit, hsel', hent⟩ := initRequestInputs_entries m sel seed hsel
  have hval : ∀ e ∈ m'.paramInputs, e.2.Value = "" := by
    intro e he
    obtain ⟨p, -, -, h | h⟩ := hent e he <;> rw [h] <;> rfl
  refine ⟨m', hinit, hval, ?_, ?_⟩
  · intro hnd p hp
    obtain ⟨m'', hinit'', hkeys, -⟩ := initRequestInputs_fields m sel seed hsel hnd
    rw [hinit] at hinit''
    cases hinit''
    have hmem : p.Name ∈ GoMap.keys m'.paramInputs := by
      rw [hkeys]; exact List.mem_map_of_mem _ hp
    obtain ⟨e, he, hname⟩ := List.mem_map.mp hmem
    obtain ⟨q, hq, hqname, hfield⟩ := hent e he
    have hqp : q = p :=
      List.inj_on_of_nodup_map hnd hq hp (hqname.symm.trans hname)
    subst hqp
    have hndk : (m'.paramInputs.map Prod.fst).Nodup := by
      have : GoMap.keys m'.paramInputs = m'.paramInputs.map Prod.fst := rfl
      rw [← this, hkeys]; exact hnd
    have hget : m'.paramInputs.get q.Name = some e.2 := by
      unfold GoMap.get
      rw [lookup_eq_some_iff_mem _ hndk]
      have : (q.Name, e.2) = e := by rw [← hname]
      rw [this]; exact he
    refine ⟨e.2, hget, hval e he, ?_, ?_⟩
    · rcases hfield with h | h <;> rw [h] <;> rfl
    · rcases hfield with h | h <;> rw [h] <;> rfl
  · intro seed'
    refine ⟨buildRequest sel (GoMap.range m'.paramInputs seed') m'.bodyInput, ?_, ?_⟩
    · simp [Model.sendRequest, derefSelected, hsel', bind, Except.bind]
    · have hempty : ∀ e ∈ GoMap.range m'.paramInputs seed', e.2.Value = "" :=
        fun e he => hval e ((GoMap.range_perm _ _).mem_iff.mp he)
      unfold buildRequest
      simp only [foldl_visit_empty sel _ _ hempty]
      split <;> exact ⟨rfl, rfl, rfl⟩

/-- C18 (amended), witness: the form of `exampleEndpoint`, whose parameter has the
example "42": every field value is empty after opening. -/
theorem C18_example_form :
    (afterEvents exampleModel [press "enter"]).model.selected = some exampleEndpoint ∧
    (((afterEvents exampleModel [press "enter"]).model.initRequestInputs 0).toOption.map
      (fun m => m.paramInputs.all (fun e => e.2.Value == ""))) = some true := by
  obtain ⟨m', hinit, hval, -, -⟩ :=
    C18_opening_shows_examples_as_placeholders (afterEvents exampleModel [press "enter"]).model
      exampleEndpoint 0 (by decide)
  refine ⟨by decide, ?_⟩
  rw [hinit]
  exact congrArg some (List.all_eq_true.mpr (fun e he => by simp [hval e he]))

/-- C19.  The request assembled by `sendRequest` for the selected endpoint: if the
endpoint has a body, the body of the request is the text of the body field and the
content type is `application/json`; if it has none, both are empty, whatever the
body field holds. -/
theorem C19_body_attached_iff_declared (m : Model) (sel : Endpoint) (seed : Nat)
    (hsel : m.selected = some sel) :
    ∃ req, m.sendRequest seed = .ok req ∧
      (sel.HasBody = true →
        req.Body = m.bodyInput.Value ∧ req.ContentType = "application/json") ∧
      (sel.HasBody = false → req.Body = "" ∧ req.ContentType = "") := by
  refine ⟨buildRequest sel (GoMap.range m.paramInputs seed) m.bodyInput, ?_, ?_, ?_⟩
  · simp [Model.sendRequest, derefSelected, hsel, bind, Except.bind]
  · intro hb
    simp [buildRequest, hb]
  · intro hb
    have h := foldl_visit_rest sel (GoMap.range m.paramInputs seed)
      { Method := ToUpper sel.Method, Path := sel.Path, QueryParams := [], Headers := [],
        Body := "", ContentType := "" }
    simp only [buildRequest, hb, Bool.false_eq_true, if_false]
    exact ⟨h.2.1, h.2.2⟩

/-- C19, witness: the form of `itemEndpoint`, which has a body, with "x" typed into
the body field; and the form of `usersEndpoint`, which has none. -/
theorem C19_item_body :
    (afterEvents demoModel reopenEvents).model.bodyInput.Value = "x" ∧
    ((afterEvents demoModel reopenEvents).model.sendRequest 0).toOption.map
      (fun r => (r.Body, r.ContentType)) = some ("x", "application/json") := by
  obtain ⟨req, hreq, hbody, -⟩ :=
    C19_body_attached_iff_declared (afterEvents demoModel reopenEvents).model itemEndpoint 0
      (by decide)
  refine ⟨by decide, ?_⟩
  rw [hreq]
  obtain ⟨h1, h2⟩ := hbody (by decide)
  simp only [Except.toOption, Option.map_some', h1, h2]
  decide

/-- C20 (the code at the failing input).  The user opens a request form, sends,
and goes back to the list, which clears the selected endpoint; then the response
arrives and the user presses esc in the response view.  The state is reachable,
its mode is RequestForm and no endpoint is selected: the invariant fails, the view
panics, and so does the next tab. -/
theorem C20_request_form_without_endpoint :
    Reachable (afterEvents demoModel staleResponseEvents) ∧
    (afterEvents demoModel staleResponseEvents.dropLast).model.mode = .viewResponse ∧
    (afterEvents demoModel staleResponseEvents.dropLast).model.selected = none ∧
    (afterEvents demoModel staleResponseEvents).model.mode = .viewRequest ∧
    (afterEvents demoModel staleResponseEvents).model.selected = none ∧
    ¬ SelectedInvariant (afterEvents demoModel staleResponseEvents).model ∧
    (afterEvents demoModel staleResponseEvents).model.View = .error .nilDereference ∧
    run (start demoModel) (staleResponseEvents ++ [press "tab"])
      = .error .nilDereference := by
  refine ⟨⟨demoSpec, [itemEndpoint, pingEndpoint], 0, "http://localhost:3000", 8080, true,
    staleResponseEvents, by decide⟩, ?_⟩
  decide

theorem indexSlice_zero_of_ne_nil {α : Type} (xs : List α) (h : xs ≠ []) :
    ∃ x, indexSlice xs 0 = .ok x := by
  cases xs with
  | nil => exact absurd rfl h
  | cons x t => exact ⟨x, by simp [indexSlice]⟩

theorem extractParameter_ok (p : openapi3.Parameter) (h : HasTypeIfSchema p) :
    ∃ param, extractParameter p = .ok param ∧ param.Name = p.Name ∧ param.In = p.In ∧
      param.Required = p.Required ∧ param.Description = p.Description := by
  cases hs : p.Schema with
  | none =>
    simp only [extractParameter, hs]
    exact ⟨_, rfl, rfl, rfl, rfl, rfl⟩
  | some schemaRef =>
    cases hv : schemaRef.Value with
    | none =>
      simp only [extractParameter, hs, hv]
      exact ⟨_, rfl, rfl, rfl, rfl, rfl⟩
    | some schema =>
      obtain ⟨typeName, ht⟩ := indexSlice_zero_of_ne_nil _ (h schemaRef schema hs hv)
      cases he : schema.Example with
      | none =>
        simp only [extractParameter, hs, hv, ht, he]
        exact ⟨_, rfl, rfl, rfl, rfl, rfl⟩
      | some _ =>
        simp only [extractParameter, hs, hv, ht, he]
        exact ⟨_, rfl, rfl, rfl, rfl, rfl⟩

theorem extractLoop_ok :
    ∀ (refs : List openapi3.ParameterRef) (acc : List Parameter),
      (∀ ref ∈ refs, ∀ p, ref.Value = some p → HasTypeIfSchema p) →
      ∃ params, extractLoop refs acc = .ok params ∧
        params.map (fun q => (q.Name, q.In, q.Required, q.Description)) =
          acc.map (fun q => (q.Name, q.In, q.Required, q.Description)) ++
            (refs.filterMap (fun ref => ref.Value)).map
              (fun p => (p.Name, p.In, p.Required, p.Description))
  | [], acc, _ => ⟨acc, rfl, by simp⟩
  | ref :: rest, acc, h => by
    have hrest : ∀ r ∈ rest, ∀ p, r.Value = some p → HasTypeIfSchema p :=
      fun r hr => h r (List.mem_cons_of_mem _ hr)
    cases hv : ref.Value with
    | none =>
      obtain ⟨params, hp, hm⟩ := extractLoop_ok rest acc hrest
      refine ⟨params, ?_, ?_⟩
      · simp only [extractLoop, hv, hp]
      · simp only [List.filterMap_cons, hv, hm]
    | some p =>
      obtain ⟨param, hparam, h1, h2, h3, h4⟩ :=
        extractParameter_ok p (h ref (List.mem_cons_self _ _) p hv)
      obtain ⟨params, hp, hm⟩ := extractLoop_ok rest (acc ++ [param]) hrest
      refine ⟨params, ?_, ?_⟩
      · simp only [extractLoop, hv, hparam, hp]
      · simp only [List.filterMap_cons, hv, hm, List.map_append, List.map_cons, List.map_nil,
          h1, h2, h3, h4, List.append_assoc, List.singleton_append]

/-- When the schema of every present parameter, if present, declares at least one
type, `extractParameters` returns one parameter per reference whose value is
present, in declaration order, with name, location, required flag and description
copied. -/
theorem extractParameters_of_typed (op : openapi3.Operation)
    (h : ∀ ref ∈ op.Parameters, ∀ p, ref.Value = some p → HasTypeIfSchema p) :
    ∃ params, extractParameters op = .ok params ∧
      params.map (fun q => (q.Name, q.In, q.Required, q.Description)) =
        (op.Parameters.filterMap (fun ref => ref.Value)).map
          (fun p => (p.Name, p.In, p.Required, p.Description)) := by
  obtain ⟨params, hp, hm⟩ := extractLoop_ok op.Parameters [] h
  exact ⟨params, hp, by simpa using hm⟩

/-- C21 (the code at the failing input).  For an operation whose query parameter
`filter` has a schema that declares no type (an empty type list, or a nil type
pointer), `extractParameters` does not return: `Type.Slice()[0]` is an index out of
range.  For an operation whose schemas declare a type it returns the present
parameters in declaration order. -/
theorem C21_untyped_schema_panics :
    extractParameters untypedOperation = .error .indexOutOfRange ∧
    extractParameters
      { Parameters := [paramRefWith "filter" "query" (some (schemaWithTypes none))] }
      = .error .indexOutOfRange ∧
    (extractParameters typedOperation).toOption.map
      (fun ps => ps.map (fun q => (q.Name, q.In, q.Schema)))
      = some [("id", "path", "string"), ("limit", "query", "")] := by
  decide

end ApiMug
